import Mathlib

/-!
Shallow embedding of the campaign delivery pipeline of the marketing
backend: the Brevo webhook processor (BrevoService), the email sender
(EmailSenderService), the campaign state machine (CampaignsService), the
campaign scheduler (CampaignSchedulerService) and the public unsubscribe
endpoint (UnsubscribeController).  Database tables are lists of rows,
ISO timestamps are natural numbers, and every Supabase update is a
conditional map over the corresponding list.
-/

namespace Marketing

/-- Character codes of a JavaScript string.  The source manipulates plain
strings; the data relevant here (email addresses, template text) is in the
ASCII range, which this model covers. -/
abbrev JStr := List Nat

/-- Code list of a Lean string literal, for concrete examples. -/
def str (s : String) : JStr := s.data.map Char.toNat

/-- One code of String.prototype.toLowerCase, on the ASCII range: the
codes 65..90 (A..Z) are shifted to 97..122 (a..z), everything else is
kept. -/
def lowerCode (n : Nat) : Nat := if 65 ≤ n ∧ n ≤ 90 then n + 32 else n

/-- Model of email.toLowerCase() as used by BrevoService.isUnsubscribed. -/
def toLowerCase (s : JStr) : JStr := s.map lowerCode

/-- Status enum of a campaign_emails row. -/
inductive EmailStatus where
  | pending | sent | delivered | opened | clicked | bounced | failed | unsubscribed
deriving DecidableEq

/-- Status enum of a campaigns row. -/
inductive CampaignStatus where
  | draft | scheduled | sending | paused | sent | cancelled
deriving DecidableEq

/-- The aggregate stats snapshot stored on a campaigns row. -/
structure CampaignStats where
  total : Nat
  sent : Nat
  delivered : Nat
  opened : Nat
  clicked : Nat
  bounced : Nat
  failed : Nat
  unsubscribed : Nat
deriving DecidableEq

/-- A campaigns row.  Fields that no claim touches (name, description,
from_name, from_email, reply_to, send_options, created_by) are omitted. -/
structure Campaign where
  id : Nat
  status : CampaignStatus
  template_id : Option Nat
  csv_file_id : Option Nat
  subject_override : Option JStr
  scheduled_at : Option Nat
  started_at : Option Nat
  completed_at : Option Nat
  stats : Option CampaignStats
deriving DecidableEq

/-- A campaign_emails row. -/
structure EmailRecord where
  id : Nat
  campaign_id : Nat
  csv_contact_id : Nat
  email_address : JStr
  recipient_name : Option JStr
  status : EmailStatus
  sent_at : Option Nat
  delivered_at : Option Nat
  opened_at : Option Nat
  clicked_at : Option Nat
  bounced_at : Option Nat
  unsubscribed_at : Option Nat
  error_message : Option String
  brevo_message_id : Option Nat
deriving DecidableEq

/-- An email_events row.  The free-form event_data and ip_address metadata
is not referenced by any claim and is omitted. -/
structure EmailEvent where
  campaign_email_id : Nat
  event_type : String
  occurred_at : Nat
deriving DecidableEq

/-- An unsubscribes row. -/
structure UnsubscribeRow where
  email : JStr
  campaign_id : Option Nat
  campaign_email_id : Option Nat
  reason : String
  unsubscribed_at : Nat
deriving DecidableEq

/-- A brevo_webhooks row (the InboundWebhookLog).  The raw payload column
is not referenced by any claim and is omitted. -/
structure BrevoWebhookRow where
  event_type : String
  message_id : Option Nat
  email : JStr
  processed : Bool
  error_message : Option String
deriving DecidableEq

/-- A csv_contacts row. -/
structure Contact where
  id : Nat
  csv_file_id : Nat
  email : JStr
  first_name : Option JStr
  last_name : Option JStr
  custom_fields : List (JStr × JStr)
  is_valid : Bool
deriving DecidableEq

/-- The transactional store, one list per table, plus the id counter that
stands in for uuid generation and the process-local activeCampaigns map of
EmailSenderService. -/
structure Db where
  campaigns : List Campaign
  campaign_emails : List EmailRecord
  email_events : List EmailEvent
  unsubscribes : List UnsubscribeRow
  brevo_webhooks : List BrevoWebhookRow
  csv_contacts : List Contact
  next_email_id : Nat
  active_campaigns : List (Nat × Bool)
deriving DecidableEq

/-- Model of a Supabase .single() call: exactly one row, else an error
(returned here as none). -/
def single {α : Type} (l : List α) : Option α :=
  match l with
  | [x] => some x
  | _ => none

/-- Conditional update over one table, the shape of every
.update(...).eq(...) statement in the source. -/
def updateWhere {α : Type} (p : α → Bool) (f : α → α) (l : List α) : List α :=
  l.map (fun x => if p x then f x else x)

/-- Lookup of a campaigns row by id, as .select().eq('id', id).single(). -/
def findCampaign (db : Db) (id : Nat) : Option Campaign :=
  single (db.campaigns.filter (fun c => c.id == id))

/-- Update of the campaigns row with the given id. -/
def updateCampaignRow (id : Nat) (f : Campaign → Campaign) (db : Db) : Db :=
  { db with campaigns := updateWhere (fun c => c.id == id) f db.campaigns }

/-- Update of the campaign_emails row with the given id. -/
def updateEmailRow (id : Nat) (f : EmailRecord → EmailRecord) (db : Db) : Db :=
  { db with campaign_emails := updateWhere (fun e => e.id == id) f db.campaign_emails }

/-- ASCII lowering of one character, for the event.event?.toLowerCase()
step of processWebhook. -/
def lowerChar (c : Char) : Char :=
  if 65 ≤ c.toNat ∧ c.toNat ≤ 90 then Char.ofNat (c.toNat + 32) else c

/-- ASCII lowering of an event-type string. -/
def lowerString (s : String) : String := ⟨s.data.map lowerChar⟩

/-- An inbound Brevo webhook event, the fields processWebhook reads. -/
structure BrevoWebhookEvent where
  event : String
  email : JStr
  message_id : Option Nat
  sending_ip : Option String
  link : Option String
  reason : Option String
deriving DecidableEq

/-- BrevoService.recordEvent: append one immutable email_events row. -/
def recordEvent (campaignEmailId : Nat) (eventType : String) (occurredAt : Nat)
    (db : Db) : Db :=
  { db with email_events := db.email_events ++
      [{ campaign_email_id := campaignEmailId, event_type := eventType,
         occurred_at := occurredAt }] }

/-- The stats formula of BrevoService.updateCampaignStats (also used,
verbatim, by EmailSenderService.markCampaignComplete). -/
def computeCampaignStats (emails : List EmailRecord) : CampaignStats :=
  { total := emails.length
    sent := (emails.filter (fun e =>
      e.status == .sent || e.status == .delivered ||
      e.status == .opened || e.status == .clicked)).length
    delivered := (emails.filter (fun e =>
      e.status == .delivered || e.status == .opened || e.status == .clicked)).length
    opened := (emails.filter (fun e => e.opened_at.isSome)).length
    clicked := (emails.filter (fun e => e.clicked_at.isSome)).length
    bounced := (emails.filter (fun e => e.status == .bounced)).length
    failed := (emails.filter (fun e => e.status == .failed)).length
    unsubscribed := (emails.filter (fun e =>
      e.status == .unsubscribed || e.unsubscribed_at.isSome)).length }

/-- BrevoService.updateCampaignStats: recompute the stats snapshot of one
campaign from its campaign_emails rows. -/
def updateCampaignStats (campaignId : Nat) (db : Db) : Db :=
  let emails := db.campaign_emails.filter (fun e => e.campaign_id == campaignId)
  updateCampaignRow campaignId
    (fun c => { c with stats := some (computeCampaignStats emails) }) db

/-- The row write of handleDelivered: unconditional status and
delivered_at overwrite. -/
def deliveredRowUpd (timestamp : Nat) (e : EmailRecord) : EmailRecord :=
  { e with status := .delivered, delivered_at := some timestamp }

/-- BrevoService.handleDelivered: unconditional status and delivered_at
write. -/
def handleDelivered (emailId campaignId timestamp : Nat) (db : Db) : Db :=
  let db := updateEmailRow emailId (deliveredRowUpd timestamp) db
  let db := recordEvent emailId "delivered" timestamp db
  updateCampaignStats campaignId db

/-- The read-before-write of handleOpened: the update includes opened_at
only when the row read back has no opened_at yet (a missing row counts as
not opened). -/
def firstOpenFlag (emailId : Nat) (emails : List EmailRecord) : Bool :=
  match single (emails.filter (fun e => e.id == emailId)) with
  | some e => e.opened_at.isNone
  | none => true

/-- The row write of handleOpened: status always, opened_at only when the
flag says it was unset. -/
def openedRowUpd (setOpenedAt : Bool) (timestamp : Nat) (e : EmailRecord) : EmailRecord :=
  { e with
    status := .opened
    opened_at := if setOpenedAt then some timestamp else e.opened_at }

/-- BrevoService.handleOpened: read the existing opened_at, always write
status, write opened_at only when not already set. -/
def handleOpened (emailId campaignId timestamp : Nat) (db : Db) : Db :=
  let setOpenedAt := firstOpenFlag emailId db.campaign_emails
  let db := updateEmailRow emailId (openedRowUpd setOpenedAt timestamp) db
  let db := recordEvent emailId "opened" timestamp db
  updateCampaignStats campaignId db

/-- The read-before-write of handleClicked. -/
def firstClickFlag (emailId : Nat) (emails : List EmailRecord) : Bool :=
  match single (emails.filter (fun e => e.id == emailId)) with
  | some e => e.clicked_at.isNone
  | none => true

/-- The row write of handleClicked. -/
def clickedRowUpd (setClickedAt : Bool) (timestamp : Nat) (e : EmailRecord) : EmailRecord :=
  { e with
    status := .clicked
    clicked_at := if setClickedAt then some timestamp else e.clicked_at }

/-- BrevoService.handleClicked: same first-occurrence rule as handleOpened
for clicked_at. -/
def handleClicked (emailId campaignId timestamp : Nat) (db : Db) : Db :=
  let setClickedAt := firstClickFlag emailId db.campaign_emails
  let db := updateEmailRow emailId (clickedRowUpd setClickedAt timestamp) db
  let db := recordEvent emailId "clicked" timestamp db
  updateCampaignStats campaignId db

/-- The reason stored by handleBounced: event.reason, or the template
string built from the raw event type when reason is absent or empty
(JavaScript || semantics). -/
def bounceReason (ev : BrevoWebhookEvent) : String :=
  match ev.reason with
  | some r => if r = "" then "Bounce type: " ++ ev.event else r
  | none => "Bounce type: " ++ ev.event

/-- The row write of handleBounced: unconditional status, bounced_at and
error_message overwrite. -/
def bouncedRowUpd (timestamp : Nat) (ev : BrevoWebhookEvent) (e : EmailRecord) : EmailRecord :=
  { e with
    status := .bounced
    bounced_at := some timestamp
    error_message := some (bounceReason ev) }

/-- BrevoService.handleBounced: unconditional status, bounced_at and
error_message write. -/
def handleBounced (emailId campaignId timestamp : Nat) (ev : BrevoWebhookEvent)
    (db : Db) : Db :=
  let db := updateEmailRow emailId (bouncedRowUpd timestamp ev) db
  let db := recordEvent emailId "bounced" timestamp db
  updateCampaignStats campaignId db

/-- The row write of handleUnsubscribed: unconditional status and
unsubscribed_at overwrite. -/
def unsubscribedRowUpd (timestamp : Nat) (e : EmailRecord) : EmailRecord :=
  { e with status := .unsubscribed, unsubscribed_at := some timestamp }

/-- BrevoService.handleUnsubscribed: unconditional status and
unsubscribed_at write, plus a verbatim (not lowercased) insert into the
unsubscribes table. -/
def handleUnsubscribed (emailId campaignId : Nat) (email : JStr) (timestamp : Nat)
    (db : Db) : Db :=
  let db := updateEmailRow emailId (unsubscribedRowUpd timestamp) db
  let db := { db with unsubscribes := db.unsubscribes ++
      [{ email := email, campaign_id := some campaignId,
         campaign_email_id := some emailId, reason := "Brevo unsubscribe",
         unsubscribed_at := timestamp }] }
  let db := recordEvent emailId "unsubscribed" timestamp db
  updateCampaignStats campaignId db

/-- The row write of handleComplaint: status bounced with a fixed reason,
and no bounced_at write. -/
def complaintRowUpd (e : EmailRecord) : EmailRecord :=
  { e with status := .bounced, error_message := some "Spam complaint received" }

/-- BrevoService.handleComplaint: status bounced with a fixed reason, no
bounced_at write. -/
def handleComplaint (emailId campaignId timestamp : Nat) (db : Db) : Db :=
  let db := updateEmailRow emailId complaintRowUpd db
  let db := recordEvent emailId "complained" timestamp db
  updateCampaignStats campaignId db

/-- The switch of BrevoService.processWebhook, dispatching a matched event
to its handler.  Unknown event types fall through with no effect. -/
def dispatchWebhookEvent (eventType : String) (ev : BrevoWebhookEvent)
    (emailId campaignId now : Nat) (db : Db) : Db :=
  if eventType = "delivered" then handleDelivered emailId campaignId now db
  else if eventType = "opened" ∨ eventType = "unique_opened" then
    handleOpened emailId campaignId now db
  else if eventType = "click" then handleClicked emailId campaignId now db
  else if eventType = "hard_bounce" ∨ eventType = "soft_bounce" ∨ eventType = "blocked" then
    handleBounced emailId campaignId now ev db
  else if eventType = "unsubscribed" then
    handleUnsubscribed emailId campaignId ev.email now db
  else if eventType = "complaint" then handleComplaint emailId campaignId now db
  else db

/-- The campaign_emails footprint of dispatchWebhookEvent, as a function
of the campaign_emails table alone; the other effects of the handlers
(email_events append, unsubscribes insert, stats recomputation) do not
touch campaign_emails. -/
def dispatchEmailsUpdate (eventType : String) (ev : BrevoWebhookEvent)
    (emailId now : Nat) (emails : List EmailRecord) : List EmailRecord :=
  if eventType = "delivered" then
    updateWhere (fun e => e.id == emailId) (deliveredRowUpd now) emails
  else if eventType = "opened" ∨ eventType = "unique_opened" then
    updateWhere (fun e => e.id == emailId)
      (openedRowUpd (firstOpenFlag emailId emails) now) emails
  else if eventType = "click" then
    updateWhere (fun e => e.id == emailId)
      (clickedRowUpd (firstClickFlag emailId emails) now) emails
  else if eventType = "hard_bounce" ∨ eventType = "soft_bounce" ∨ eventType = "blocked" then
    updateWhere (fun e => e.id == emailId) (bouncedRowUpd now ev) emails
  else if eventType = "unsubscribed" then
    updateWhere (fun e => e.id == emailId) (unsubscribedRowUpd now) emails
  else if eventType = "complaint" then
    updateWhere (fun e => e.id == emailId) complaintRowUpd emails
  else emails

/-- BrevoService.processWebhook: log the raw event first with processed
false; stop when there is no message id; on no unique match mark the log
rows of that message id processed with a note; otherwise dispatch and mark
the log rows of that message id and event type processed. -/
def processWebhook (now : Nat) (ev : BrevoWebhookEvent) (db : Db) : Db :=
  let eventType := lowerString ev.event
  let db := { db with brevo_webhooks := db.brevo_webhooks ++
      [{ event_type := eventType, message_id := ev.message_id, email := ev.email,
         processed := false, error_message := none }] }
  match ev.message_id with
  | none => db
  | some mid =>
    match single (db.campaign_emails.filter (fun e => e.brevo_message_id == some mid)) with
    | none =>
      let logs := updateWhere (fun w => w.message_id == some mid)
        (fun w => { w with
                    processed := true
                    error_message := some "Campaign email not found" })
        db.brevo_webhooks
      { db with brevo_webhooks := logs }
    | some campaignEmail =>
      let db := dispatchWebhookEvent eventType ev campaignEmail.id
        campaignEmail.campaign_id now db
      let logs := updateWhere
        (fun w => w.message_id == some mid && w.event_type == eventType)
        (fun w => { w with processed := true }) db.brevo_webhooks
      { db with brevo_webhooks := logs }

/-- The status each handled event type writes, read off the six handlers;
none for event types the switch ignores. -/
def targetStatusOfEvent (eventType : String) : Option EmailStatus :=
  if eventType = "delivered" then some .delivered
  else if eventType = "opened" ∨ eventType = "unique_opened" then some .opened
  else if eventType = "click" then some .clicked
  else if eventType = "hard_bounce" ∨ eventType = "soft_bounce" ∨ eventType = "blocked" then
    some .bounced
  else if eventType = "unsubscribed" then some .unsubscribed
  else if eventType = "complaint" then some .bounced
  else none

/-- A sent record awaiting provider events, for concrete webhook runs. -/
def exRecord : EmailRecord where
  id := 1
  campaign_id := 1
  csv_contact_id := 1
  email_address := str "a@b.c"
  recipient_name := none
  status := .sent
  sent_at := some 1
  delivered_at := none
  opened_at := none
  clicked_at := none
  bounced_at := none
  unsubscribed_at := none
  error_message := none
  brevo_message_id := some 100

/-- A campaign row owning exRecord. -/
def exCampaign : Campaign where
  id := 1
  status := .sending
  template_id := some 1
  csv_file_id := some 1
  subject_override := none
  scheduled_at := none
  started_at := some 0
  completed_at := none
  stats := none

/-- A store holding exCampaign and exRecord only. -/
def exDb : Db where
  campaigns := [exCampaign]
  campaign_emails := [exRecord]
  email_events := []
  unsubscribes := []
  brevo_webhooks := []
  csv_contacts := []
  next_email_id := 2
  active_campaigns := []

/-- A delivered event carrying the message id of exRecord. -/
def exDeliveredEvent : BrevoWebhookEvent where
  event := "delivered"
  email := str "a@b.c"
  message_id := some 100
  sending_ip := none
  link := none
  reason := none

/-- An opened event carrying the message id of exRecord. -/
def exOpenedEvent : BrevoWebhookEvent where
  event := "opened"
  email := str "a@b.c"
  message_id := some 100
  sending_ip := none
  link := none
  reason := none

/-- A record that has already reached clicked. -/
def exClickedRecord : EmailRecord :=
  { exRecord with status := .clicked, delivered_at := some 2, opened_at := some 3,
                  clicked_at := some 5 }

/-- A store whose only record is already clicked. -/
def exDbClicked : Db := { exDb with campaign_emails := [exClickedRecord] }

/-- A delivered event without a message-id field. -/
def exNoMidEvent : BrevoWebhookEvent where
  event := "delivered"
  email := str "a@b.c"
  message_id := none
  sending_ip := none
  link := none
  reason := none

/-- BrevoService.isUnsubscribed: at least one unsubscribes row whose
email column equals the lowercased input (limit 1, count > 0). -/
def isUnsubscribed (unsubs : List UnsubscribeRow) (email : JStr) : Bool :=
  !(unsubs.filter (fun u => u.email == toLowerCase email)).isEmpty

/-- The template row joined by the Sender campaign query.  The variables
column is selected but never read by prepareEmailContent and is
omitted. -/
structure TemplateData where
  subject : JStr
  body_html : Option JStr
  body_text : Option JStr
deriving DecidableEq

/-- The campaign row with joined template, as fetched at the top of
EmailSenderService.sendCampaignEmails.  The sender identity fields are
only forwarded to the provider call and are omitted. -/
structure CampaignData where
  id : Nat
  subject_override : Option JStr
  template : Option TemplateData
deriving DecidableEq

/-- JavaScript object-spread update: an existing key keeps its position
and gets the new value, a new key is appended. -/
def objectAssign (base extra : List (JStr × JStr)) : List (JStr × JStr) :=
  extra.foldl (fun acc kv =>
    if acc.any (fun p => p.1 == kv.1) then
      acc.map (fun p => if p.1 == kv.1 then (p.1, kv.2) else p)
    else acc ++ [kv]) base

/-- The variable map of prepareEmailContent: structured fields with empty
strings for missing values, the space-joined full name of the nonempty
name parts, snake_case aliases, then the custom fields spread in. -/
def buildVariables (email_address : JStr) (contact : Option Contact) :
    List (JStr × JStr) :=
  let first := (contact.bind Contact.first_name).getD []
  let last := (contact.bind Contact.last_name).getD []
  let fullName := List.intercalate (str " ")
    (([first, last] : List JStr).filter (fun s => !s.isEmpty))
  objectAssign
    [(str "firstName", first), (str "lastName", last),
     (str "email", email_address), (str "fullName", fullName),
     (str "first_name", first), (str "last_name", last)]
    ((contact.map Contact.custom_fields).getD [])

/-- Case-insensitive prefix test: the anchored step of matching a literal
regex with the i flag. -/
def isPrefixCI : JStr → JStr → Bool
  | [], _ => true
  | _ :: _, [] => false
  | p :: ps, c :: cs => (lowerCode p == lowerCode c) && isPrefixCI ps cs

/-- The scan of one String.prototype.replace with a global
case-insensitive literal regex, on fuel bounding the number of consumed
characters: leftmost non-overlapping matches of pat are replaced by rep
and scanning resumes after the replacement.  Every step consumes at least
one character, so fuel equal to the string length runs the scan to the
end. -/
def replaceCIGo (pat rep : JStr) : Nat → JStr → JStr
  | _, [] => []
  | 0, s => s
  | fuel + 1, c :: cs =>
    if 1 ≤ pat.length ∧ isPrefixCI pat (c :: cs) = true then
      rep ++ replaceCIGo pat rep fuel (cs.drop (pat.length - 1))
    else
      c :: replaceCIGo pat rep fuel cs

/-- One String.prototype.replace with a global case-insensitive literal
regex.  Replacement values are inserted verbatim (no value substituted by
this source contains the dollar escapes of JavaScript replace). -/
def replaceCI (pat rep : JStr) (s : JStr) : JStr := replaceCIGo pat rep s.length s

/-- Case-insensitive occurrence test for a literal pattern. -/
def containsCI (pat : JStr) : JStr → Bool
  | [] => isPrefixCI pat []
  | c :: cs => isPrefixCI pat (c :: cs) || containsCI pat cs

/-- The regex source of prepareEmailContent for one key: two opening
braces, the key, two closing braces (the key is used literally; no custom
field name in this system contains regex metacharacters). -/
def placeholderPat (key : JStr) : JStr := 123 :: 123 :: (key ++ [125, 125])

/-- The substitution fold of prepareEmailContent, one global
case-insensitive replace per map entry, in map order. -/
def renderVars (vars : List (JStr × JStr)) (s : JStr) : JStr :=
  vars.foldl (fun acc kv => replaceCI (placeholderPat kv.1) kv.2 acc) s

/-- The rendered subject, html and text of one send. -/
structure EmailContent where
  subject : JStr
  html : JStr
  text : JStr
deriving DecidableEq

/-- EmailSenderService.prepareEmailContent: fail when the join produced
no template or neither the template nor the campaign override carries a
nonempty subject; otherwise substitute the variable map into the subject
(override wins when nonempty), html and text. -/
def prepareEmailContent (campaign : CampaignData) (em : EmailRecord)
    (contact : Option Contact) : Except String EmailContent :=
  match campaign.template with
  | none => .error "Template not found"
  | some template =>
    if template.subject.isEmpty ∧ (campaign.subject_override.getD []).isEmpty then
      .error "Subject is required - neither template.subject nor campaign.subject_override is set"
    else
      let vars := buildVariables em.email_address contact
      let subject0 := match campaign.subject_override with
        | some s => if !s.isEmpty then s else template.subject
        | none => template.subject
      let html0 := template.body_html.getD []
      let text0 := template.body_text.getD []
      .ok { subject := renderVars vars subject0
            html := renderVars vars html0
            text := renderVars vars text0 }

/-- The csv_contacts join of the Sender query for one record. -/
def contactFor (db : Db) (e : EmailRecord) : Option Contact :=
  single (db.csv_contacts.filter (fun c => c.id == e.csv_contact_id))

/-- The environment of one Sender run: the per-iteration reads of the
process-local activeCampaigns flag and of the campaign status, the
outcome, provider message id and clock of each iteration, and the clock
of the completion write. -/
structure SenderEnv where
  active : Nat → Bool
  statusAt : Nat → CampaignStatus
  sendOk : Nat → Bool
  msgId : Nat → Nat
  timeAt : Nat → Nat
  finalTime : Nat

/-- The record write of the unsubscribed skip branch of the Sender: no
unsubscribed_at and no sent_at, only status and the reason. -/
def unsubSkipRowUpd (e : EmailRecord) : EmailRecord :=
  { e with status := .unsubscribed,
           error_message := some "Email previously unsubscribed" }

/-- The record write after a successful provider call. -/
def sentRowUpd (t mid : Nat) (e : EmailRecord) : EmailRecord :=
  { e with status := .sent, sent_at := some t, brevo_message_id := some mid }

/-- The record write of the catch branch of the Sender loop. -/
def failedRowUpd (msg : String) (e : EmailRecord) : EmailRecord :=
  { e with status := .failed, error_message := some msg }

/-- The per-record loop of sendCampaignEmails over the prefetched pending
rows.  The second component collects the ids handed to
sendTransactionalEmail (the Delivery Provider Client), in order; a call
is recorded whether or not it succeeds, and a failed call marks the
record failed and continues.  The every-tenth-record stats write is
omitted: the unconditional final stats update overwrites the same column
before the run ends, so it is not observable in the final state. -/
def sendLoop (cd : CampaignData) (env : SenderEnv) :
    Nat → List EmailRecord → Db → List Nat → Db × List Nat
  | _, [], db, calls => (db, calls)
  | i, e :: rest, db, calls =>
    if env.active i = false then (db, calls)
    else if env.statusAt i ≠ .sending then (db, calls)
    else if isUnsubscribed db.unsubscribes e.email_address then
      sendLoop cd env (i + 1) rest (updateEmailRow e.id unsubSkipRowUpd db) calls
    else
      match prepareEmailContent cd e (contactFor db e) with
      | .error msg =>
        let db := updateEmailRow e.id (failedRowUpd msg) db
        let db := recordEvent e.id "failed" (env.timeAt i) db
        sendLoop cd env (i + 1) rest db calls
      | .ok _content =>
        let calls := calls ++ [e.id]
        if env.sendOk i then
          let db := updateEmailRow e.id (sentRowUpd (env.timeAt i) (env.msgId i)) db
          let db := recordEvent e.id "sent" (env.timeAt i) db
          sendLoop cd env (i + 1) rest db calls
        else
          let db := updateEmailRow e.id (failedRowUpd "Brevo sending failed") db
          let db := recordEvent e.id "failed" (env.timeAt i) db
          sendLoop cd env (i + 1) rest db calls

/-- EmailSenderService.markCampaignComplete: recompute the full stats
snapshot from the campaign_emails rows and set status sent with
completed_at. -/
def markCampaignComplete (campaignId t : Nat) (db : Db) : Db :=
  let emails := db.campaign_emails.filter (fun e => e.campaign_id == campaignId)
  updateCampaignRow campaignId
    (fun c => { c with
                status := .sent
                completed_at := some t
                stats := some (computeCampaignStats emails) }) db

/-- The fallback stats object of sendCampaignEmails when the campaign row
carries none. -/
def defaultRunStats (total : Nat) : CampaignStats :=
  { total := total, sent := 0, delivered := 0, opened := 0, clicked := 0,
    bounced := 0, failed := 0, unsubscribed := 0 }

/-- The final stats write of sendCampaignEmails: the stats fetched before
the loop with total, sent, failed and unsubscribed recomputed from the
final rows. -/
def finalStatsUpdate (current : CampaignStats) (finalRows : List EmailRecord) :
    CampaignStats :=
  { current with
    total := finalRows.length
    sent := (finalRows.filter (fun e =>
      e.status == .sent || e.status == .delivered || e.status == .opened ||
      e.status == .clicked)).length
    failed := (finalRows.filter (fun e => e.status == .failed)).length
    unsubscribed := (finalRows.filter (fun e => e.status == .unsubscribed)).length }

/-- EmailSenderService.sendCampaignEmails for a campaign whose fetch
succeeded (the row and joined template are cd): select the pending rows,
run the loop, write the final stats, and mark the campaign complete
exactly when no pending row remains; an empty pending set marks complete
immediately. -/
def sendCampaignEmails (campaignId : Nat) (cd : CampaignData) (env : SenderEnv)
    (db : Db) : Db × List Nat :=
  let pending := db.campaign_emails.filter
    (fun e => e.campaign_id == campaignId && e.status == .pending)
  if pending.isEmpty then
    (markCampaignComplete campaignId env.finalTime db, [])
  else
    let currentStats := ((findCampaign db campaignId).bind Campaign.stats).getD
      (defaultRunStats pending.length)
    let res := sendLoop cd env 0 pending db []
    let db1 := res.1
    let finalRows := db1.campaign_emails.filter (fun e => e.campaign_id == campaignId)
    let db2 := updateCampaignRow campaignId
      (fun c => { c with stats := some (finalStatsUpdate currentStats finalRows) }) db1
    let db3 := if (finalRows.filter (fun e => e.status == .pending)).length == 0 then
      markCampaignComplete campaignId env.finalTime db2 else db2
    (db3, res.2)

/-- A pending record not yet sent, for concrete Sender runs. -/
def exPendingRecord : EmailRecord :=
  { exRecord with status := .pending, sent_at := none, brevo_message_id := none }

/-- A template whose subject carries an upper-cased firstName
placeholder. -/
def exTemplateAda : TemplateData where
  subject := str "Hi \x7b\x7bFIRSTNAME\x7d\x7d"
  body_html := none
  body_text := none

/-- Campaign data joined with exTemplateAda. -/
def exCampaignDataAda : CampaignData where
  id := 1
  subject_override := none
  template := some exTemplateAda

/-- A contact with structured name fields and no custom fields. -/
def exContactAda : Contact where
  id := 1
  csv_file_id := 1
  email := str "ada@x.com"
  first_name := some (str "Ada")
  last_name := some (str "Lovelace")
  custom_fields := []
  is_valid := true

/-- A mixed-case unsubscribe entry, stored verbatim as both the webhook
handler and the public endpoint store addresses. -/
def exUnsubMixedCase : UnsubscribeRow where
  email := str "Bob@X.com"
  campaign_id := none
  campaign_email_id := none
  reason := "User clicked unsubscribe link"
  unsubscribed_at := 0

/-- A pending record whose address matches exUnsubMixedCase exactly. -/
def exPendingBob : EmailRecord :=
  { exPendingRecord with email_address := str "Bob@X.com" }

/-- A store with the mixed-case unsubscribe entry and the matching
pending record. -/
def exDbBob : Db :=
  { exDb with campaign_emails := [exPendingBob], unsubscribes := [exUnsubMixedCase] }

/-- A lowercase unsubscribe entry that the suppression check does
match. -/
def exUnsubLower : UnsubscribeRow where
  email := str "carl@x.com"
  campaign_id := none
  campaign_email_id := none
  reason := "User clicked unsubscribe link"
  unsubscribed_at := 0

/-- A pending record whose lowercased address equals exUnsubLower. -/
def exPendingCarl : EmailRecord :=
  { exPendingRecord with email_address := str "Carl@X.com" }

/-- A store with the lowercase entry and the suppressed pending
record. -/
def exDbCarl : Db :=
  { exDb with campaign_emails := [exPendingCarl], unsubscribes := [exUnsubLower] }

/-- A Sender environment that never stops and always succeeds. -/
def exEnvAll : SenderEnv where
  active := fun _ => true
  statusAt := fun _ => .sending
  sendOk := fun _ => true
  msgId := fun i => 100 + i
  timeAt := fun i => 50 + i
  finalTime := 99

/-- JavaScript Map.set: overwrite the entry in place or append it. -/
def mapSet (k : Nat) (v : Bool) (m : List (Nat × Bool)) : List (Nat × Bool) :=
  if m.any (fun p => p.1 == k) then
    m.map (fun p => if p.1 == k then (p.1, v) else p)
  else m ++ [(k, v)]

/-- EmailSenderService.stopSending (reached through
CampaignSchedulerService.stopCampaign): set the process-local
activeCampaigns flag of the campaign to false. -/
def stopSending (id : Nat) (db : Db) : Db :=
  { db with active_campaigns := mapSet id false db.active_campaigns }

/-- The recipient_name built by prepareCampaignEmails: the nonempty name
parts joined with a space, or null when both are missing. -/
def joinNames (first last : Option JStr) : Option JStr :=
  let parts := ([first.getD [], last.getD []] : List JStr).filter (fun s => !s.isEmpty)
  let joined := List.intercalate (str " ") parts
  if joined.isEmpty then none else some joined

/-- One pending campaign_emails row created by prepareCampaignEmails; the
uuid is modelled by the store id counter. -/
def mkCampaignEmail (campaignId newId : Nat) (ct : Contact) : EmailRecord where
  id := newId
  campaign_id := campaignId
  csv_contact_id := ct.id
  email_address := ct.email
  recipient_name := joinNames ct.first_name ct.last_name
  status := .pending
  sent_at := none
  delivered_at := none
  opened_at := none
  clicked_at := none
  bounced_at := none
  unsubscribed_at := none
  error_message := none
  brevo_message_id := none

/-- The rows of one materialization, one per contact in order. -/
def mkCampaignEmails (campaignId : Nat) : Nat → List Contact → List EmailRecord
  | _, [] => []
  | nextId, ct :: rest =>
    mkCampaignEmail campaignId nextId ct :: mkCampaignEmails campaignId (nextId + 1) rest

/-- CampaignsService.prepareCampaignEmails: unconditionally insert one
pending row per valid contact of the campaign csv file (no check for
already existing rows), then write a fresh stats object.  The source
stats object carries no unsubscribed key; it is modelled as 0.  An empty
contact set is rejected before any insert. -/
def prepareCampaignEmails (campaignId : Nat) (db : Db) : Except String Db :=
  match findCampaign db campaignId with
  | none => .error "Campaign not found"
  | some campaign =>
    let contacts := db.csv_contacts.filter
      (fun c => campaign.csv_file_id == some c.csv_file_id && c.is_valid)
    if contacts.isEmpty then
      .error "No valid contacts found in the CSV file"
    else
      let db2 := { db with
                   campaign_emails := db.campaign_emails ++
                     mkCampaignEmails campaignId db.next_email_id contacts
                   next_email_id := db.next_email_id + contacts.length }
      let freshStats : CampaignStats :=
        { total := contacts.length, sent := 0, delivered := 0, opened := 0,
          clicked := 0, bounced := 0, failed := 0, unsubscribed := 0 }
      .ok (updateCampaignRow campaignId
        (fun c => { c with stats := some freshStats }) db2)

/-- CampaignsService.schedule: only from draft with a template and a csv
file attached; always materializes (no existing-row check), then sets
status scheduled with scheduled_at.  The timezone merge into send_options
is not modelled (the column is omitted). -/
def schedule (id scheduledAt : Nat) (db : Db) : Except String Db :=
  match findCampaign db id with
  | none => .error "Campaign not found"
  | some campaign =>
    if campaign.status ≠ .draft then
      .error "Can only schedule campaigns in draft status"
    else if campaign.template_id = none ∨ campaign.csv_file_id = none then
      .error "Campaign must have a template and CSV file to be scheduled"
    else
      match prepareCampaignEmails id db with
      | .error e => .error e
      | .ok db2 =>
        .ok (updateCampaignRow id
          (fun c => { c with status := .scheduled, scheduled_at := some scheduledAt }) db2)

/-- The final write of CampaignsService.start: an update filtered by the
id only, with no status condition at write time. -/
def startPromotionWrite (id t : Nat) (db : Db) : Db :=
  updateCampaignRow id
    (fun c => { c with status := .sending, started_at := some t }) db

/-- CampaignsService.start: only from draft or scheduled with a template
and a csv file; materializes only when the campaign has no rows yet; then
writes status sending unconditionally and launches the Sender through
scheduleNow (whose campaigns-table footprint is empty). -/
def start (id now : Nat) (db : Db) : Except String Db :=
  match findCampaign db id with
  | none => .error "Campaign not found"
  | some campaign =>
    if campaign.status ≠ .draft ∧ campaign.status ≠ .scheduled then
      .error "Can only start campaigns in draft or scheduled status"
    else if campaign.template_id = none ∨ campaign.csv_file_id = none then
      .error "Campaign must have a template and CSV file to start"
    else
      let cnt := (db.campaign_emails.filter (fun e => e.campaign_id == id)).length
      match (if cnt == 0 then prepareCampaignEmails id db else .ok db) with
      | .error e => .error e
      | .ok db2 => .ok (startPromotionWrite id now db2)

/-- CampaignsService.pause: only while sending; signals the Sender
through stopCampaign and sets status paused. -/
def pause (id : Nat) (db : Db) : Except String Db :=
  match findCampaign db id with
  | none => .error "Campaign not found"
  | some campaign =>
    if campaign.status ≠ .sending then
      .error "Can only pause campaigns that are currently sending"
    else
      let db2 := stopSending id db
      .ok (updateCampaignRow id (fun c => { c with status := .paused }) db2)

/-- CampaignsService.cancel: rejected only when already sent or
cancelled; otherwise sets status cancelled and touches nothing else. -/
def cancel (id : Nat) (db : Db) : Except String Db :=
  match findCampaign db id with
  | none => .error "Campaign not found"
  | some campaign =>
    if campaign.status = .sent ∨ campaign.status = .cancelled then
      .error "Campaign is already completed or cancelled"
    else
      .ok (updateCampaignRow id (fun c => { c with status := .cancelled }) db)

/-- The surrounding request handler: a rejected operation leaves the
store as it was. -/
def runOp (r : Except String Db) (db : Db) : Db :=
  match r with
  | .ok d => d
  | .error _ => db

/-- A schedule or start invocation on one campaign. -/
inductive CampaignOp where
  | schedule (t : Nat)
  | start (t : Nat)
deriving DecidableEq

/-- Application of one operation, keeping the store on rejection. -/
def applyOp (id : Nat) (db : Db) : CampaignOp → Db
  | .schedule t => runOp (schedule id t db) db
  | .start t => runOp (start id t db) db

/-- A sequence of schedule/start invocations on one campaign. -/
def runOps (id : Nat) (ops : List CampaignOp) (db : Db) : Db :=
  ops.foldl (applyOp id) db

/-- One promotion of checkScheduledCampaigns: a conditional update of the
rows carrying the campaign id that are still scheduled at write time. -/
def promoteStep (writeTime : Nat) (d : Db) (c : Campaign) : Db :=
  let rows := updateWhere
    (fun r => r.id == c.id && r.status == .scheduled)
    (fun r => { r with status := .sending, started_at := some writeTime })
    d.campaigns
  { d with campaigns := rows }

/-- CampaignSchedulerService.checkScheduledCampaigns: select the
scheduled campaigns whose time has come and promote each under the
status-guarded conditional update; the Sender launches have no
campaigns-table footprint. -/
def checkScheduledCampaigns (now writeTime : Nat) (db : Db) : Db :=
  let due := db.campaigns.filter (fun c => c.status == .scheduled &&
    match c.scheduled_at with
    | some t => decide (t ≤ now)
    | none => false)
  due.foldl (promoteStep writeTime) db

/-- CampaignSchedulerService.scheduleNow: starts the email sender for the
campaign and performs no campaigns-table write at all; the status write
of the manual path lives in CampaignsService.start. -/
def scheduleNow (campaignId : Nat) (db : Db) : Db := db

/-- The stats recount of the unsubscribe endpoint: rewrite only the
unsubscribed count, and only when the campaign row carries a stats
object. -/
def updateUnsubStats (campaignId : Nat) (db : Db) : Db :=
  let emails := db.campaign_emails.filter (fun e => e.campaign_id == campaignId)
  match (single (db.campaigns.filter (fun c => c.id == campaignId))).bind Campaign.stats with
  | none => db
  | some stats =>
    updateCampaignRow campaignId (fun c => { c with stats := some { stats with
      unsubscribed := (emails.filter (fun e =>
        e.status == .unsubscribed || e.unsubscribed_at.isSome)).length } }) db

/-- UnsubscribeController.unsubscribe: look the record up by id; a
missing or already unsubscribed record changes nothing (404 or the
already-unsubscribed page); otherwise mark the record unsubscribed,
insert a verbatim unsubscribes row, append the event and recount the
unsubscribed stat. -/
def unsubscribeEndpoint (campaignEmailId now : Nat) (db : Db) : Db :=
  match single (db.campaign_emails.filter (fun e => e.id == campaignEmailId)) with
  | none => db
  | some campaignEmail =>
    if campaignEmail.unsubscribed_at.isSome || campaignEmail.status == .unsubscribed then db
    else
      let db2 := updateEmailRow campaignEmailId (unsubscribedRowUpd now) db
      let db3 := { db2 with unsubscribes := db2.unsubscribes ++
          [{ email := campaignEmail.email_address
             campaign_id := some campaignEmail.campaign_id
             campaign_email_id := some campaignEmailId
             reason := "User clicked unsubscribe link"
             unsubscribed_at := now }] }
      let db4 := recordEvent campaignEmailId "unsubscribed" now db3
      updateUnsubStats campaignEmail.campaign_id db4

/-- A draft campaign with template and csv file attached. -/
def exDraftCampaign : Campaign where
  id := 2
  status := .draft
  template_id := some 1
  csv_file_id := some 7
  subject_override := none
  scheduled_at := none
  started_at := none
  completed_at := none
  stats := none

/-- One valid contact of the draft campaign csv file. -/
def exContactValid : Contact where
  id := 9
  csv_file_id := 7
  email := str "v@x.com"
  first_name := none
  last_name := none
  custom_fields := []
  is_valid := true

/-- A record of the draft campaign that already exists before schedule
is invoked. -/
def exExistingRecord : EmailRecord :=
  { exPendingRecord with id := 50, campaign_id := 2, csv_contact_id := 9 }

/-- A store holding the draft campaign with one valid contact and one
already materialized record. -/
def exDbDraftWithRecord : Db where
  campaigns := [exDraftCampaign]
  campaign_emails := [exExistingRecord]
  email_events := []
  unsubscribes := []
  brevo_webhooks := []
  csv_contacts := [exContactValid]
  next_email_id := 51
  active_campaigns := []

/-- The same store without the already materialized record. -/
def exDbDraftClean : Db := { exDbDraftWithRecord with campaign_emails := [] }

/-- A due scheduled campaign. -/
def exScheduledCampaign : Campaign where
  id := 3
  status := .scheduled
  template_id := some 1
  csv_file_id := some 1
  subject_override := none
  scheduled_at := some 5
  started_at := none
  completed_at := none
  stats := none

/-- A store holding only the due scheduled campaign. -/
def exDbScheduled : Db := { exDb with campaigns := [exScheduledCampaign] }

/-- The contact ids of one materialization of the campaign, the shape
every schedule/start sequence must produce at most once. -/
def materializedTarget (db0 : Db) (c0 : Campaign) : List Nat :=
  (db0.csv_contacts.filter
    (fun ct => c0.csv_file_id == some ct.csv_file_id && ct.is_valid)).map Contact.id

/-- The reachability invariant of the schedule/start operations on one
campaign: the row keeps its csv file, the contacts table is untouched,
and the campaign rows are either not yet materialized (still draft) or
materialized exactly once. -/
def C7Inv (id : Nat) (db0 : Db) (c0 : Campaign) (db : Db) : Prop :=
  ∃ c, findCampaign db id = some c ∧ c.csv_file_id = c0.csv_file_id ∧
    db.csv_contacts = db0.csv_contacts ∧
    ((c.status = .draft ∧ db.campaign_emails.filter (fun e => e.campaign_id == id) = []) ∨
     ((db.campaign_emails.filter (fun e => e.campaign_id == id)).map
         EmailRecord.csv_contact_id = materializedTarget db0 c0 ∧
       materializedTarget db0 c0 ≠ [] ∧ c.status ≠ .draft))

instance {ε α : Type} [DecidableEq ε] [DecidableEq α] : DecidableEq (Except ε α) :=
  fun a b =>
    match a, b with
    | .ok x, .ok y =>
      if h : x = y then .isTrue (by rw [h]) else .isFalse (by intro hc; cases hc; exact h rfl)
    | .error x, .error y =>
      if h : x = y then .isTrue (by rw [h]) else .isFalse (by intro hc; cases hc; exact h rfl)
    | .ok _, .error _ => .isFalse (by intro hc; cases hc)
    | .error _, .ok _ => .isFalse (by intro hc; cases hc)

theorem single_eq_some {α : Type} {l : List α} {x : α} :
    single l = some x ↔ l = [x] := by
  cases l with
  | nil => simp [single]
  | cons a t => cases t <;> simp [single]

theorem updateWhere_eq_of_none {α : Type} {p : α → Bool} {f : α → α} {l : List α}
    (h : ∀ x ∈ l, p x = false) : updateWhere p f l = l := by
  induction l with
  | nil => rfl
  | cons a t ih =>
    have ha := h a (by simp)
    simp only [updateWhere, List.map_cons, ha, if_neg (by simp [ha] : ¬ p a = true)]
    exact congrArg (a :: ·) (ih fun x hx => h x (by simp [hx]))

theorem updateWhere_eq_self {α : Type} {p : α → Bool} {f : α → α} {l : List α}
    (h : ∀ x ∈ l, p x = true → f x = x) : updateWhere p f l = l := by
  induction l with
  | nil => rfl
  | cons a t ih =>
    have step : (if p a then f a else a) = a := by
      by_cases hp : p a = true
      · simp [hp, h a (by simp) hp]
      · simp [hp]
    simp only [updateWhere, List.map_cons, step]
    exact congrArg (a :: ·) (ih fun x hx hpx => h x (by simp [hx]) hpx)

theorem filter_updateWhere {α : Type} {q p : α → Bool} {f : α → α} {l : List α}
    (hq : ∀ x, q (f x) = q x) :
    (updateWhere p f l).filter q = updateWhere p f (l.filter q) := by
  induction l with
  | nil => rfl
  | cons a t ih =>
    have hqa : q (if p a then f a else a) = q a := by
      by_cases hp : p a = true <;> simp [hp, hq]
    by_cases hqa2 : q a = true
    · simp only [updateWhere, List.map_cons, List.filter_cons, hqa, hqa2, if_pos]
      simpa [updateWhere] using ih
    · simp only [updateWhere, List.map_cons, List.filter_cons, hqa, hqa2]
      simpa [updateWhere, hqa2] using ih

theorem filter_nil_or_singleton {α β : Type} [DecidableEq β] (g : α → β) (k : β)
    {l : List α} (h : (l.map g).Nodup) :
    l.filter (fun x => g x == k) = [] ∨
      ∃ x, x ∈ l ∧ g x = k ∧ l.filter (fun x => g x == k) = [x] := by
  induction l with
  | nil => left; rfl
  | cons a t ih =>
    rw [List.map_cons, List.nodup_cons] at h
    by_cases hak : g a = k
    · right
      refine ⟨a, by simp, hak, ?_⟩
      have htnil : t.filter (fun x => g x == k) = [] := by
        rw [List.filter_eq_nil_iff]
        intro x hx
        simp only [beq_iff_eq]
        intro hgx
        exact h.1 (by rw [hak, ← hgx]; exact List.mem_map_of_mem g hx)
      simp [List.filter_cons, hak, htnil]
    · rcases ih h.2 with hnil | ⟨x, hx, hgx, hfil⟩
      · left; simp [List.filter_cons, hak, hnil]
      · right; exact ⟨x, by simp [hx], hgx, by simp [List.filter_cons, hak, hfil]⟩

theorem handleDelivered_emails (i c t : Nat) (db : Db) :
    (handleDelivered i c t db).campaign_emails =
      updateWhere (fun e => e.id == i) (deliveredRowUpd t) db.campaign_emails := rfl

theorem handleOpened_emails (i c t : Nat) (db : Db) :
    (handleOpened i c t db).campaign_emails =
      updateWhere (fun e => e.id == i)
        (openedRowUpd (firstOpenFlag i db.campaign_emails) t) db.campaign_emails := rfl

theorem handleClicked_emails (i c t : Nat) (db : Db) :
    (handleClicked i c t db).campaign_emails =
      updateWhere (fun e => e.id == i)
        (clickedRowUpd (firstClickFlag i db.campaign_emails) t) db.campaign_emails := rfl

theorem handleBounced_emails (i c t : Nat) (ev : BrevoWebhookEvent) (db : Db) :
    (handleBounced i c t ev db).campaign_emails =
      updateWhere (fun e => e.id == i) (bouncedRowUpd t ev) db.campaign_emails := rfl

theorem handleUnsubscribed_emails (i c : Nat) (em : JStr) (t : Nat) (db : Db) :
    (handleUnsubscribed i c em t db).campaign_emails =
      updateWhere (fun e => e.id == i) (unsubscribedRowUpd t) db.campaign_emails := rfl

theorem handleComplaint_emails (i c t : Nat) (db : Db) :
    (handleComplaint i c t db).campaign_emails =
      updateWhere (fun e => e.id == i) complaintRowUpd db.campaign_emails := rfl

theorem dispatch_emails (ty : String) (ev : BrevoWebhookEvent) (i c now : Nat) (db : Db) :
    (dispatchWebhookEvent ty ev i c now db).campaign_emails =
      dispatchEmailsUpdate ty ev i now db.campaign_emails := by
  unfold dispatchWebhookEvent dispatchEmailsUpdate
  split_ifs <;> rfl

theorem dispatch_webhooks (ty : String) (ev : BrevoWebhookEvent) (i c now : Nat) (db : Db) :
    (dispatchWebhookEvent ty ev i c now db).brevo_webhooks = db.brevo_webhooks := by
  unfold dispatchWebhookEvent
  split_ifs <;> rfl

theorem processWebhook_emails_nomid (now : Nat) (ev : BrevoWebhookEvent) (db : Db)
    (h : ev.message_id = none) :
    (processWebhook now ev db).campaign_emails = db.campaign_emails := by
  unfold processWebhook
  rw [h]

theorem processWebhook_emails_unmatched (now : Nat) (ev : BrevoWebhookEvent) (db : Db)
    (mid : Nat) (h : ev.message_id = some mid)
    (hs : single (db.campaign_emails.filter (fun e => e.brevo_message_id == some mid)) = none) :
    (processWebhook now ev db).campaign_emails = db.campaign_emails := by
  unfold processWebhook
  rw [h]
  dsimp only
  rw [hs]

theorem processWebhook_emails_matched (now : Nat) (ev : BrevoWebhookEvent) (db : Db)
    (mid : Nat) (ce : EmailRecord) (h : ev.message_id = some mid)
    (hs : single (db.campaign_emails.filter (fun e => e.brevo_message_id == some mid)) = some ce) :
    (processWebhook now ev db).campaign_emails =
      dispatchEmailsUpdate (lowerString ev.event) ev ce.id now db.campaign_emails := by
  unfold processWebhook
  rw [h]
  dsimp only
  rw [hs]
  exact dispatch_emails _ _ _ _ _ _

theorem openedUpdate_idem (i t1 t2 : Nat) (emails : List EmailRecord)
    (h : (emails.map EmailRecord.id).Nodup) :
    updateWhere (fun e => e.id == i)
      (openedRowUpd (firstOpenFlag i
        (updateWhere (fun e => e.id == i) (openedRowUpd (firstOpenFlag i emails) t1) emails)) t2)
      (updateWhere (fun e => e.id == i) (openedRowUpd (firstOpenFlag i emails) t1) emails)
    = updateWhere (fun e => e.id == i) (openedRowUpd (firstOpenFlag i emails) t1) emails := by
  rcases filter_nil_or_singleton EmailRecord.id i h with hnil | ⟨e0, he0mem, he0id, hfil⟩
  · have hno : ∀ x ∈ emails, (x.id == i) = false := by
      intro x hx
      by_contra hc
      have hxf : x ∈ emails.filter (fun e => e.id == i) :=
        List.mem_filter.mpr ⟨hx, by revert hc; cases (x.id == i) <;> simp⟩
      rw [hnil] at hxf
      exact absurd hxf (List.not_mem_nil x)
    rw [updateWhere_eq_of_none hno, updateWhere_eq_of_none hno]
  · have hb : firstOpenFlag i emails = e0.opened_at.isNone := by
      simp [firstOpenFlag, hfil, single]
    have hfil1 : (updateWhere (fun e => e.id == i)
        (openedRowUpd (firstOpenFlag i emails) t1) emails).filter (fun e => e.id == i) =
        [openedRowUpd (firstOpenFlag i emails) t1 e0] := by
      rw [filter_updateWhere (by intro x; simp [openedRowUpd])]
      rw [hfil]
      simp [updateWhere, he0id]
    have hflag1 : firstOpenFlag i (updateWhere (fun e => e.id == i)
        (openedRowUpd (firstOpenFlag i emails) t1) emails) = false := by
      rw [hb] at hfil1 ⊢
      unfold firstOpenFlag
      rw [hfil1]
      cases hv : e0.opened_at <;> simp [single, openedRowUpd, hv]
    rw [hflag1]
    apply updateWhere_eq_self
    intro x hx hxi
    obtain ⟨y, hy, hxy⟩ := List.mem_map.mp hx
    by_cases hyi : (y.id == i) = true
    · rw [if_pos hyi] at hxy
      rw [← hxy]
      simp [openedRowUpd]
    · rw [if_neg (by simp [hyi])] at hxy
      rw [← hxy] at hxi
      exact absurd hxi (by simp [hyi])

theorem clickedUpdate_idem (i t1 t2 : Nat) (emails : List EmailRecord)
    (h : (emails.map EmailRecord.id).Nodup) :
    updateWhere (fun e => e.id == i)
      (clickedRowUpd (firstClickFlag i
        (updateWhere (fun e => e.id == i) (clickedRowUpd (firstClickFlag i emails) t1) emails)) t2)
      (updateWhere (fun e => e.id == i) (clickedRowUpd (firstClickFlag i emails) t1) emails)
    = updateWhere (fun e => e.id == i) (clickedRowUpd (firstClickFlag i emails) t1) emails := by
  rcases filter_nil_or_singleton EmailRecord.id i h with hnil | ⟨e0, he0mem, he0id, hfil⟩
  · have hno : ∀ x ∈ emails, (x.id == i) = false := by
      intro x hx
      by_contra hc
      have hxf : x ∈ emails.filter (fun e => e.id == i) :=
        List.mem_filter.mpr ⟨hx, by revert hc; cases (x.id == i) <;> simp⟩
      rw [hnil] at hxf
      exact absurd hxf (List.not_mem_nil x)
    rw [updateWhere_eq_of_none hno, updateWhere_eq_of_none hno]
  · have hb : firstClickFlag i emails = e0.clicked_at.isNone := by
      simp [firstClickFlag, hfil, single]
    have hfil1 : (updateWhere (fun e => e.id == i)
        (clickedRowUpd (firstClickFlag i emails) t1) emails).filter (fun e => e.id == i) =
        [clickedRowUpd (firstClickFlag i emails) t1 e0] := by
      rw [filter_updateWhere (by intro x; simp [clickedRowUpd])]
      rw [hfil]
      simp [updateWhere, he0id]
    have hflag1 : firstClickFlag i (updateWhere (fun e => e.id == i)
        (clickedRowUpd (firstClickFlag i emails) t1) emails) = false := by
      rw [hb] at hfil1 ⊢
      unfold firstClickFlag
      rw [hfil1]
      cases hv : e0.clicked_at <;> simp [single, clickedRowUpd, hv]
    rw [hflag1]
    apply updateWhere_eq_self
    intro x hx hxi
    obtain ⟨y, hy, hxy⟩ := List.mem_map.mp hx
    by_cases hyi : (y.id == i) = true
    · rw [if_pos hyi] at hxy
      rw [← hxy]
      simp [clickedRowUpd]
    · rw [if_neg (by simp [hyi])] at hxy
      rw [← hxy] at hxi
      exact absurd hxi (by simp [hyi])


theorem updateWhere_id_field {β : Type} (g : EmailRecord → β) (v : β)
    (f : EmailRecord → EmailRecord) (i : Nat) (emails : List EmailRecord)
    (hf : ∀ e, g (f e) = v) :
    ∀ r ∈ updateWhere (fun e => e.id == i) f emails, r.id = i → g r = v := by
  intro r hr hri
  obtain ⟨y, hy, hxy⟩ := List.mem_map.mp hr
  by_cases hyi : (y.id == i) = true
  · rw [if_pos hyi] at hxy
    rw [← hxy]
    exact hf y
  · rw [if_neg (by simp [hyi])] at hxy
    rw [← hxy] at hri
    exact absurd hri (by simpa using hyi)

theorem map_field_updateWhere {α β : Type} (g : α → β) (p : α → Bool) (f : α → α)
    (l : List α) (h : ∀ e, g (f e) = g e) :
    (updateWhere p f l).map g = l.map g := by
  induction l with
  | nil => rfl
  | cons x xs ih =>
    show g (if p x then f x else x) :: (updateWhere p f xs).map g = g x :: xs.map g
    rw [ih]
    by_cases hp : p x = true
    · rw [if_pos hp, h x]
    · rw [if_neg hp]

theorem processWebhook_sent_at (now : Nat) (ev : BrevoWebhookEvent) (db : Db) :
    (processWebhook now ev db).campaign_emails.map EmailRecord.sent_at =
      db.campaign_emails.map EmailRecord.sent_at := by
  cases hmid : ev.message_id with
  | none => rw [processWebhook_emails_nomid now ev db hmid]
  | some mid =>
    cases hs : single (db.campaign_emails.filter
        (fun e => e.brevo_message_id == some mid)) with
    | none => rw [processWebhook_emails_unmatched now ev db mid hmid hs]
    | some ce =>
      rw [processWebhook_emails_matched now ev db mid ce hmid hs]
      unfold dispatchEmailsUpdate
      split_ifs
      all_goals first
        | rfl
        | exact map_field_updateWhere EmailRecord.sent_at _ _ _ (fun e => rfl)

/-- C1 amended: only opened_at and clicked_at are first-write-wins.
Re-processing a duplicate opened, unique_opened or click event leaves the
campaign_emails table exactly as after the first processing (record ids
being distinct), while a delivered event always rewrites delivered_at
with the current processing time, a bounce event always rewrites
bounced_at and an unsubscribed event always rewrites unsubscribed_at, so
duplicates of those events do change the stored timestamps; and no
webhook processing run writes sent_at, which is written by the Sender
alone. -/
theorem C1_amended (db : Db) (ev : BrevoWebhookEvent) (t1 t2 : Nat)
    (hids : (db.campaign_emails.map EmailRecord.id).Nodup) :
    ((lowerString ev.event = "opened" ∨ lowerString ev.event = "unique_opened" ∨
        lowerString ev.event = "click") →
      (processWebhook t2 ev (processWebhook t1 ev db)).campaign_emails =
        (processWebhook t1 ev db).campaign_emails) ∧
    (∀ mid ce, ev.message_id = some mid →
      single (db.campaign_emails.filter (fun e => e.brevo_message_id == some mid)) = some ce →
      (lowerString ev.event = "delivered" →
        ∀ r ∈ (processWebhook t1 ev db).campaign_emails, r.id = ce.id →
          r.delivered_at = some t1) ∧
      (lowerString ev.event = "hard_bounce" ∨ lowerString ev.event = "soft_bounce" ∨
          lowerString ev.event = "blocked" →
        ∀ r ∈ (processWebhook t1 ev db).campaign_emails, r.id = ce.id →
          r.bounced_at = some t1) ∧
      (lowerString ev.event = "unsubscribed" →
        ∀ r ∈ (processWebhook t1 ev db).campaign_emails, r.id = ce.id →
          r.unsubscribed_at = some t1)) ∧
    ((processWebhook t1 ev db).campaign_emails.map EmailRecord.sent_at =
      db.campaign_emails.map EmailRecord.sent_at) := by
  refine ⟨?_, ?_, processWebhook_sent_at t1 ev db⟩
  · intro hty
    cases hmid : ev.message_id with
    | none =>
      rw [processWebhook_emails_nomid t2 ev _ hmid,
        processWebhook_emails_nomid t1 ev db hmid]
    | some mid =>
      cases hs : single (db.campaign_emails.filter
          (fun e => e.brevo_message_id == some mid)) with
      | none =>
        have h1 := processWebhook_emails_unmatched t1 ev db mid hmid hs
        have h2 := processWebhook_emails_unmatched t2 ev (processWebhook t1 ev db)
          mid hmid (by rw [h1]; exact hs)
        rw [h2]
      | some ce =>
        have h1 := processWebhook_emails_matched t1 ev db mid ce hmid hs
        have hfilce : db.campaign_emails.filter
            (fun e => e.brevo_message_id == some mid) = [ce] := single_eq_some.mp hs
        rcases hty with hty | hty | hty
        all_goals rw [hty] at h1
        -- opened and unique_opened share the handler; click mirrors it
        · have h1o : (processWebhook t1 ev db).campaign_emails =
              updateWhere (fun e => e.id == ce.id)
                (openedRowUpd (firstOpenFlag ce.id db.campaign_emails) t1)
                db.campaign_emails := by
            rw [h1]; simp [dispatchEmailsUpdate]
          have hs1 : single ((processWebhook t1 ev db).campaign_emails.filter
              (fun e => e.brevo_message_id == some mid)) =
              some (openedRowUpd (firstOpenFlag ce.id db.campaign_emails) t1 ce) := by
            rw [h1o, filter_updateWhere (by intro x; simp [openedRowUpd]), hfilce]
            simp [updateWhere, single]
          have h2 := processWebhook_emails_matched t2 ev (processWebhook t1 ev db) mid
            (openedRowUpd (firstOpenFlag ce.id db.campaign_emails) t1 ce) hmid hs1
          rw [hty] at h2
          rw [h2, h1o]
          have hceid : (openedRowUpd (firstOpenFlag ce.id db.campaign_emails) t1 ce).id
              = ce.id := rfl
          rw [hceid]
          simp only [dispatchEmailsUpdate, if_neg (by decide : ¬ ("opened" = "delivered")),
            if_pos (by decide : ("opened" = "opened" ∨ "opened" = "unique_opened"))]
          exact openedUpdate_idem ce.id t1 t2 db.campaign_emails hids
        · have h1o : (processWebhook t1 ev db).campaign_emails =
              updateWhere (fun e => e.id == ce.id)
                (openedRowUpd (firstOpenFlag ce.id db.campaign_emails) t1)
                db.campaign_emails := by
            rw [h1]; simp [dispatchEmailsUpdate]
          have hs1 : single ((processWebhook t1 ev db).campaign_emails.filter
              (fun e => e.brevo_message_id == some mid)) =
              some (openedRowUpd (firstOpenFlag ce.id db.campaign_emails) t1 ce) := by
            rw [h1o, filter_updateWhere (by intro x; simp [openedRowUpd]), hfilce]
            simp [updateWhere, single]
          have h2 := processWebhook_emails_matched t2 ev (processWebhook t1 ev db) mid
            (openedRowUpd (firstOpenFlag ce.id db.campaign_emails) t1 ce) hmid hs1
          rw [hty] at h2
          rw [h2, h1o]
          have hceid : (openedRowUpd (firstOpenFlag ce.id db.campaign_emails) t1 ce).id
              = ce.id := rfl
          rw [hceid]
          simp only [dispatchEmailsUpdate,
            if_neg (by decide : ¬ ("unique_opened" = "delivered")),
            if_pos (by decide : ("unique_opened" = "opened" ∨ "unique_opened" = "unique_opened"))]
          exact openedUpdate_idem ce.id t1 t2 db.campaign_emails hids
        · have h1o : (processWebhook t1 ev db).campaign_emails =
              updateWhere (fun e => e.id == ce.id)
                (clickedRowUpd (firstClickFlag ce.id db.campaign_emails) t1)
                db.campaign_emails := by
            rw [h1]; simp [dispatchEmailsUpdate]
          have hs1 : single ((processWebhook t1 ev db).campaign_emails.filter
              (fun e => e.brevo_message_id == some mid)) =
              some (clickedRowUpd (firstClickFlag ce.id db.campaign_emails) t1 ce) := by
            rw [h1o, filter_updateWhere (by intro x; simp [clickedRowUpd]), hfilce]
            simp [updateWhere, single]
          have h2 := processWebhook_emails_matched t2 ev (processWebhook t1 ev db) mid
            (clickedRowUpd (firstClickFlag ce.id db.campaign_emails) t1 ce) hmid hs1
          rw [hty] at h2
          rw [h2, h1o]
          have hceid : (clickedRowUpd (firstClickFlag ce.id db.campaign_emails) t1 ce).id
              = ce.id := rfl
          rw [hceid]
          simp only [dispatchEmailsUpdate, if_neg (by decide : ¬ ("click" = "delivered")),
            if_neg (by decide : ¬ ("click" = "opened" ∨ "click" = "unique_opened")),
            if_pos (by decide : ("click" = "click"))]
          exact clickedUpdate_idem ce.id t1 t2 db.campaign_emails hids
  · intro mid ce hmid hs
    have h1 := processWebhook_emails_matched t1 ev db mid ce hmid hs
    refine ⟨?_, ?_, ?_⟩
    · intro hty
      rw [h1, hty]
      simp only [dispatchEmailsUpdate, if_pos (by decide : ("delivered" = "delivered"))]
      exact updateWhere_id_field EmailRecord.delivered_at (some t1) _ _ _ (fun e => rfl)
    · intro hty
      have hbr : dispatchEmailsUpdate (lowerString ev.event) ev ce.id t1 db.campaign_emails =
          updateWhere (fun e => e.id == ce.id) (bouncedRowUpd t1 ev) db.campaign_emails := by
        rcases hty with hty | hty | hty <;> rw [hty] <;> simp [dispatchEmailsUpdate]
      rw [h1, hbr]
      exact updateWhere_id_field EmailRecord.bounced_at (some t1) _ _ _ (fun e => rfl)
    · intro hty
      have hun : dispatchEmailsUpdate (lowerString ev.event) ev ce.id t1 db.campaign_emails =
          updateWhere (fun e => e.id == ce.id) (unsubscribedRowUpd t1) db.campaign_emails := by
        rw [hty]
        simp [dispatchEmailsUpdate]
      rw [h1, hun]
      exact updateWhere_id_field EmailRecord.unsubscribed_at (some t1) _ _ _ (fun e => rfl)

/-- C1 witness: the amended theorem applied to the one-record store and a
duplicated opened event at times 10 and 20. -/
theorem C1_witness :
    (exDb.campaign_emails.map EmailRecord.id).Nodup ∧
    (processWebhook 20 exOpenedEvent (processWebhook 10 exOpenedEvent exDb)).campaign_emails =
      (processWebhook 10 exOpenedEvent exDb).campaign_emails :=
  ⟨by decide, (C1_amended exDb exOpenedEvent 10 20 (by decide)).1 (by decide)⟩

/-- C1 counterexample: processing the same delivered event twice, at
times 10 and 20, leaves delivered_at = 20, not the 10 written by the
first processing: delivered_at is rewritten by a duplicate delivery, so
the timestamp field is not written at most once. -/
theorem C1_counterexample :
    ((processWebhook 20 exDeliveredEvent
        (processWebhook 10 exDeliveredEvent exDb)).campaign_emails.map
      EmailRecord.delivered_at = [some 20]) ∧
    ((processWebhook 10 exDeliveredEvent exDb).campaign_emails.map
      EmailRecord.delivered_at = [some 10]) := by decide


/-- C2 amended: the status written by the Webhook Processor is
last-write-wins, not forward-only.  Every handled event overwrites the
matched record's status with the status of that event type (delivered,
opened and unique_opened to opened, click to clicked, the three bounce
kinds and complaint to bounced, unsubscribed to unsubscribed), regardless
of the current status, so a late or duplicate event moves the status
backward along the engagement ordinal and out of the terminal statuses;
only the opened_at and clicked_at timestamp fields are protected. -/
theorem C2_amended (db : Db) (ev : BrevoWebhookEvent) (now mid : Nat)
    (ce : EmailRecord) (st : EmailStatus) (hmid : ev.message_id = some mid)
    (hs : single (db.campaign_emails.filter (fun e => e.brevo_message_id == some mid)) = some ce)
    (hst : targetStatusOfEvent (lowerString ev.event) = some st) :
    ∀ r ∈ (processWebhook now ev db).campaign_emails, r.id = ce.id → r.status = st := by
  rw [processWebhook_emails_matched now ev db mid ce hmid hs]
  unfold targetStatusOfEvent at hst
  unfold dispatchEmailsUpdate
  split_ifs at hst ⊢ with h1 h2 h3 h4 h5 h6
  · cases hst
    exact updateWhere_id_field EmailRecord.status .delivered _ _ _ (fun e => rfl)
  · cases hst
    exact updateWhere_id_field EmailRecord.status .opened _ _ _ (fun e => rfl)
  · cases hst
    exact updateWhere_id_field EmailRecord.status .clicked _ _ _ (fun e => rfl)
  · cases hst
    exact updateWhere_id_field EmailRecord.status .bounced _ _ _ (fun e => rfl)
  · cases hst
    exact updateWhere_id_field EmailRecord.status .unsubscribed _ _ _ (fun e => rfl)
  · cases hst
    exact updateWhere_id_field EmailRecord.status .bounced _ _ _ (fun e => rfl)

/-- C2 witness: an opened event on the already clicked record overwrites
the status with opened, by the amended theorem at concrete input. -/
theorem C2_witness :
    exOpenedEvent.message_id = some 100 ∧
    targetStatusOfEvent (lowerString exOpenedEvent.event) = some .opened ∧
    ∀ r ∈ (processWebhook 9 exOpenedEvent exDbClicked).campaign_emails,
      r.id = exClickedRecord.id → r.status = .opened :=
  ⟨by decide, by decide,
    C2_amended exDbClicked exOpenedEvent 9 100 exClickedRecord .opened
      (by decide) (by decide) (by decide)⟩

/-- C2 counterexample: an opened event arriving after the record is
already clicked moves the status back from clicked to opened, so the
Webhook Processor does move a status backward along the engagement
ordinal. -/
theorem C2_counterexample :
    ((processWebhook 9 exOpenedEvent exDbClicked).campaign_emails.map
      EmailRecord.status = [.opened]) ∧ EmailStatus.opened ≠ .clicked := by decide

theorem updateWhere_append {α : Type} (p : α → Bool) (f : α → α) (a b : List α) :
    updateWhere p f (a ++ b) = updateWhere p f a ++ updateWhere p f b := by
  simp [updateWhere]

theorem processWebhook_logs_nomid (now : Nat) (ev : BrevoWebhookEvent) (db : Db)
    (h : ev.message_id = none) :
    (processWebhook now ev db).brevo_webhooks =
      db.brevo_webhooks ++ [⟨lowerString ev.event, none, ev.email, false, none⟩] := by
  unfold processWebhook
  rw [h]

theorem processWebhook_logs_unmatched (now : Nat) (ev : BrevoWebhookEvent) (db : Db)
    (mid : Nat) (h : ev.message_id = some mid)
    (hs : single (db.campaign_emails.filter (fun e => e.brevo_message_id == some mid)) = none) :
    (processWebhook now ev db).brevo_webhooks =
      updateWhere (fun w => w.message_id == some mid)
        (fun w => { w with
                    processed := true
                    error_message := some "Campaign email not found" })
        (db.brevo_webhooks ++ [⟨lowerString ev.event, some mid, ev.email, false, none⟩]) := by
  unfold processWebhook
  rw [h]
  dsimp only
  rw [hs]

theorem processWebhook_logs_matched (now : Nat) (ev : BrevoWebhookEvent) (db : Db)
    (mid : Nat) (ce : EmailRecord) (h : ev.message_id = some mid)
    (hs : single (db.campaign_emails.filter (fun e => e.brevo_message_id == some mid)) = some ce) :
    (processWebhook now ev db).brevo_webhooks =
      updateWhere (fun w => w.message_id == some mid && w.event_type == lowerString ev.event)
        (fun w => { w with processed := true })
        (db.brevo_webhooks ++ [⟨lowerString ev.event, some mid, ev.email, false, none⟩]) := by
  unfold processWebhook
  rw [h]
  dsimp only
  rw [hs]
  dsimp only
  rw [dispatch_webhooks]

/-- C6 amended: the raw event is always persisted to the log first, and
the appended log entry ends processed = true exactly when the event
carries a provider message id: when the id resolves to no record the
entry is marked processed with the explanatory note, but when the event
has no message id at all processing stops leaving the entry at
processed = false with no note (and no error is raised in any case). -/
theorem C6_amended (db : Db) (ev : BrevoWebhookEvent) (now : Nat) :
    ∃ l : BrevoWebhookRow,
      (processWebhook now ev db).brevo_webhooks.getLast? = some l ∧
      (processWebhook now ev db).brevo_webhooks.length = db.brevo_webhooks.length + 1 ∧
      l.event_type = lowerString ev.event ∧ l.email = ev.email ∧
      l.message_id = ev.message_id ∧
      l.processed = ev.message_id.isSome ∧
      (∀ mid, ev.message_id = some mid →
        single (db.campaign_emails.filter (fun e => e.brevo_message_id == some mid)) = none →
        l.error_message = some "Campaign email not found") ∧
      (ev.message_id = none → l.error_message = none) := by
  cases hmid : ev.message_id with
  | none =>
    rw [processWebhook_logs_nomid now ev db hmid]
    refine ⟨_, List.getLast?_concat _, by simp, rfl, rfl, rfl, rfl, ?_, fun _ => rfl⟩
    intro mid h
    exact absurd h (by simp)
  | some mid =>
    cases hsingle : single (db.campaign_emails.filter
        (fun e => e.brevo_message_id == some mid)) with
    | none =>
      rw [processWebhook_logs_unmatched now ev db mid hmid hsingle, updateWhere_append]
      have hrow : updateWhere (fun w => w.message_id == some mid)
          (fun w => { w with
                      processed := true
                      error_message := some "Campaign email not found" })
          [(⟨lowerString ev.event, some mid, ev.email, false, none⟩ : BrevoWebhookRow)] =
          [⟨lowerString ev.event, some mid, ev.email, true,
            some "Campaign email not found"⟩] := by
        simp [updateWhere]
      rw [hrow]
      refine ⟨_, List.getLast?_concat _, by simp [updateWhere], rfl, rfl, rfl, rfl,
        fun _ _ _ => rfl, ?_⟩
      intro h
      exact absurd h (by simp)
    | some ce =>
      rw [processWebhook_logs_matched now ev db mid ce hmid hsingle, updateWhere_append]
      have hrow : updateWhere
          (fun w => w.message_id == some mid && w.event_type == lowerString ev.event)
          (fun w => { w with processed := true })
          [(⟨lowerString ev.event, some mid, ev.email, false, none⟩ : BrevoWebhookRow)] =
          [⟨lowerString ev.event, some mid, ev.email, true, none⟩] := by
        simp [updateWhere]
      rw [hrow]
      refine ⟨_, List.getLast?_concat _, by simp [updateWhere], rfl, rfl, rfl, rfl, ?_, ?_⟩
      · intro mid2 h hs2
        cases h
        rw [hsingle] at hs2
        exact absurd hs2 (by simp)
      · intro h
        exact absurd h (by simp)

/-- C6 witness: the amended theorem applied to the one-record store and
the event without a message id. -/
theorem C6_witness :
    ∃ l : BrevoWebhookRow,
      (processWebhook 10 exNoMidEvent exDb).brevo_webhooks.getLast? = some l ∧
      (processWebhook 10 exNoMidEvent exDb).brevo_webhooks.length =
        exDb.brevo_webhooks.length + 1 ∧
      l.event_type = lowerString exNoMidEvent.event ∧ l.email = exNoMidEvent.email ∧
      l.message_id = exNoMidEvent.message_id ∧
      l.processed = exNoMidEvent.message_id.isSome ∧
      (∀ mid, exNoMidEvent.message_id = some mid →
        single (exDb.campaign_emails.filter (fun e => e.brevo_message_id == some mid)) = none →
        l.error_message = some "Campaign email not found") ∧
      (exNoMidEvent.message_id = none → l.error_message = none) :=
  C6_amended exDb exNoMidEvent 10

/-- C6 counterexample: an event that carries no provider message id is
persisted to the webhook log but processing returns with the log entry
still marked processed = false and with no explanatory note, not
processed = true as claimed. -/
theorem C6_counterexample :
    (processWebhook 10 exNoMidEvent exDb).brevo_webhooks.map
      (fun w => (w.processed, w.error_message)) = [(false, none)] := by decide

theorem replaceCIGo_not_contains (pat rep : JStr) :
    ∀ (fuel : Nat) (s : JStr), containsCI pat s = false →
      replaceCIGo pat rep fuel s = s := by
  intro fuel
  induction fuel with
  | zero => intro s h; cases s <;> rfl
  | succ n ih =>
    intro s h
    cases s with
    | nil => rfl
    | cons c cs =>
      rw [containsCI] at h
      have h2 := Bool.or_eq_false_iff.mp h
      rw [replaceCIGo, if_neg (fun hc => by rw [hc.2] at h2; exact absurd h2.1 (by simp))]
      exact congrArg (c :: ·) (ih cs h2.2)

theorem replaceCI_not_contains (pat rep s : JStr)
    (h : containsCI pat s = false) : replaceCI pat rep s = s :=
  replaceCIGo_not_contains pat rep s.length s h

theorem renderVars_not_contains (vars : List (JStr × JStr)) (s : JStr)
    (h : ∀ kv ∈ vars, containsCI (placeholderPat kv.1) s = false) :
    renderVars vars s = s := by
  induction vars with
  | nil => rfl
  | cons kv rest ih =>
    have h1 := replaceCI_not_contains (placeholderPat kv.1) kv.2 s (h kv (by simp))
    unfold renderVars at ih ⊢
    rw [List.foldl_cons, h1]
    exact ih (fun kv2 hm => h kv2 (by simp [hm]))

theorem filter_filter_bool {α : Type} (p q : α → Bool) (l : List α) :
    (l.filter p).filter q = l.filter (fun a => p a && q a) := by
  induction l with
  | nil => rfl
  | cons a t ih =>
    by_cases hp : p a = true
    · by_cases hq : q a = true <;> simp [List.filter_cons, hp, hq, ih]
    · simp [List.filter_cons, hp, ih]

theorem mem_updateWhere_of_pending {p : EmailRecord → Bool}
    {f : EmailRecord → EmailRecord} {l : List EmailRecord}
    (hf : ∀ e, (f e).status ≠ .pending) :
    ∀ r ∈ updateWhere p f l, r.status = .pending → r ∈ l := by
  intro r hr hpend
  obtain ⟨y, hy, hxy⟩ := List.mem_map.mp hr
  by_cases hp : p y = true
  · rw [if_pos hp] at hxy
    rw [← hxy] at hpend
    exact absurd hpend (hf y)
  · rw [if_neg hp] at hxy
    rw [← hxy]
    exact hy

theorem sendLoop_master (cd : CampaignData) (env : SenderEnv) :
    ∀ (pending : List EmailRecord) (i : Nat) (db : Db) (calls : List Nat),
      (sendLoop cd env i pending db calls).1.campaigns = db.campaigns ∧
      (sendLoop cd env i pending db calls).1.unsubscribes = db.unsubscribes ∧
      (∀ r ∈ (sendLoop cd env i pending db calls).1.campaign_emails,
        r.status = .pending → r ∈ db.campaign_emails) ∧
      ∃ extra, (sendLoop cd env i pending db calls).2 = calls ++ extra ∧
        ∀ id ∈ extra, ∃ e ∈ pending, e.id = id ∧
          isUnsubscribed db.unsubscribes e.email_address = false := by
  intro pending
  induction pending with
  | nil =>
    intro i db calls
    refine ⟨rfl, rfl, fun r hr _ => hr, [], ?_, ?_⟩
    · show calls = calls ++ []
      simp
    · intro id hid
      exact absurd hid (List.not_mem_nil id)
  | cons e rest ih =>
    intro i db calls
    by_cases h1 : env.active i = false
    · simp only [sendLoop]
      rw [if_pos h1]
      refine ⟨rfl, rfl, fun r hr _ => hr, [], ?_, ?_⟩
      · show calls = calls ++ []
        simp
      · intro id hid
        exact absurd hid (List.not_mem_nil id)
    by_cases h2 : env.statusAt i ≠ .sending
    · simp only [sendLoop]
      rw [if_neg h1, if_pos h2]
      refine ⟨rfl, rfl, fun r hr _ => hr, [], ?_, ?_⟩
      · show calls = calls ++ []
        simp
      · intro id hid
        exact absurd hid (List.not_mem_nil id)
    by_cases h3 : isUnsubscribed db.unsubscribes e.email_address = true
    · simp only [sendLoop]
      rw [if_neg h1, if_neg h2, if_pos h3]
      obtain ⟨hc, hu, hp, extra, hcalls, hex⟩ :=
        ih (i + 1) (updateEmailRow e.id unsubSkipRowUpd db) calls
      refine ⟨hc, hu, ?_, extra, hcalls, ?_⟩
      · intro r hr hpend
        exact mem_updateWhere_of_pending (fun e2 => by simp [unsubSkipRowUpd]) r
          (hp r hr hpend) hpend
      · intro id hid
        obtain ⟨e2, he2, heid, hus⟩ := hex id hid
        exact ⟨e2, by simp [he2], heid, hus⟩
    have h3f : isUnsubscribed db.unsubscribes e.email_address = false := by
      revert h3
      cases isUnsubscribed db.unsubscribes e.email_address <;> simp
    cases hpc : prepareEmailContent cd e (contactFor db e) with
    | error msg =>
      simp only [sendLoop]
      rw [if_neg h1, if_neg h2, if_neg h3, hpc]
      obtain ⟨hc, hu, hp, extra, hcalls, hex⟩ := ih (i + 1)
        (recordEvent e.id "failed" (env.timeAt i)
          (updateEmailRow e.id (failedRowUpd msg) db)) calls
      refine ⟨hc, hu, ?_, extra, hcalls, ?_⟩
      · intro r hr hpend
        exact mem_updateWhere_of_pending (fun e2 => by simp [failedRowUpd]) r
          (hp r hr hpend) hpend
      · intro id hid
        obtain ⟨e2, he2, heid, hus⟩ := hex id hid
        exact ⟨e2, by simp [he2], heid, hus⟩
    | ok ct =>
      by_cases h4 : env.sendOk i = true
      · simp only [sendLoop]
        rw [if_neg h1, if_neg h2, if_neg h3, hpc]
        dsimp only
        rw [if_pos h4]
        obtain ⟨hc, hu, hp, extra, hcalls, hex⟩ := ih (i + 1)
          (recordEvent e.id "sent" (env.timeAt i)
            (updateEmailRow e.id (sentRowUpd (env.timeAt i) (env.msgId i)) db))
          (calls ++ [e.id])
        refine ⟨hc, hu, ?_, e.id :: extra, ?_, ?_⟩
        · intro r hr hpend
          exact mem_updateWhere_of_pending (fun e2 => by simp [sentRowUpd]) r
            (hp r hr hpend) hpend
        · rw [hcalls, List.append_assoc]
          rfl
        · intro id hid
          rcases List.mem_cons.mp hid with hid | hid
          · exact ⟨e, by simp, hid.symm, h3f⟩
          · obtain ⟨e2, he2, heid, hus⟩ := hex id hid
            exact ⟨e2, by simp [he2], heid, hus⟩
      · simp only [sendLoop]
        rw [if_neg h1, if_neg h2, if_neg h3, hpc]
        dsimp only
        rw [if_neg h4]
        obtain ⟨hc, hu, hp, extra, hcalls, hex⟩ := ih (i + 1)
          (recordEvent e.id "failed" (env.timeAt i)
            (updateEmailRow e.id (failedRowUpd "Brevo sending failed") db))
          (calls ++ [e.id])
        refine ⟨hc, hu, ?_, e.id :: extra, ?_, ?_⟩
        · intro r hr hpend
          exact mem_updateWhere_of_pending (fun e2 => by simp [failedRowUpd]) r
            (hp r hr hpend) hpend
        · rw [hcalls, List.append_assoc]
          rfl
        · intro id hid
          rcases List.mem_cons.mp hid with hid | hid
          · exact ⟨e, by simp, hid.symm, h3f⟩
          · obtain ⟨e2, he2, heid, hus⟩ := hex id hid
            exact ⟨e2, by simp [he2], heid, hus⟩

theorem sendLoop_suppressed (cd : CampaignData) (env : SenderEnv) (r0 : EmailRecord)
    (unsubs0 : List UnsubscribeRow)
    (hsupp : isUnsubscribed unsubs0 r0.email_address = true) :
    ∀ (pending : List EmailRecord) (i : Nat) (db : Db) (calls : List Nat),
      db.unsubscribes = unsubs0 →
      (∀ e ∈ pending, e.id = r0.id → e.email_address = r0.email_address) →
      (∃ r ∈ db.campaign_emails, r.id = r0.id ∧ r.sent_at = r0.sent_at ∧
        (r.status = r0.status ∧ r.error_message = r0.error_message ∨
         r.status = .unsubscribed ∧
           r.error_message = some "Email previously unsubscribed")) →
      ∃ r ∈ (sendLoop cd env i pending db calls).1.campaign_emails, r.id = r0.id ∧
        r.sent_at = r0.sent_at ∧
        (r.status = r0.status ∧ r.error_message = r0.error_message ∨
         r.status = .unsubscribed ∧
           r.error_message = some "Email previously unsubscribed") := by
  intro pending
  induction pending with
  | nil =>
    intro i db calls _ _ hinv
    exact hinv
  | cons e rest ih =>
    intro i db calls hU hpend hinv
    obtain ⟨r, hrmem, hrid, hrsent, hrcase⟩ := hinv
    by_cases h1 : env.active i = false
    · simp only [sendLoop]
      rw [if_pos h1]
      exact ⟨r, hrmem, hrid, hrsent, hrcase⟩
    by_cases h2 : env.statusAt i ≠ .sending
    · simp only [sendLoop]
      rw [if_neg h1, if_pos h2]
      exact ⟨r, hrmem, hrid, hrsent, hrcase⟩
    have hpend2 : ∀ e2 ∈ rest, e2.id = r0.id → e2.email_address = r0.email_address :=
      fun e2 hm => hpend e2 (by simp [hm])
    by_cases h3 : isUnsubscribed db.unsubscribes e.email_address = true
    · simp only [sendLoop]
      rw [if_neg h1, if_neg h2, if_pos h3]
      refine ih (i + 1) (updateEmailRow e.id unsubSkipRowUpd db) calls hU hpend2 ?_
      by_cases hre : (r.id == e.id) = true
      · have hm := List.mem_map_of_mem
          (fun x => if x.id == e.id then unsubSkipRowUpd x else x) hrmem
        dsimp only at hm
        rw [if_pos hre] at hm
        exact ⟨unsubSkipRowUpd r, hm, by simpa [unsubSkipRowUpd] using hrid,
          by simpa [unsubSkipRowUpd] using hrsent,
          Or.inr (by simp [unsubSkipRowUpd])⟩
      · have hm := List.mem_map_of_mem
          (fun x => if x.id == e.id then unsubSkipRowUpd x else x) hrmem
        dsimp only at hm
        rw [if_neg hre] at hm
        exact ⟨r, hm, hrid, hrsent, hrcase⟩
    -- e is not suppressed, so e cannot be the tracked record
    have hene : (r.id == e.id) = false := by
      by_contra hc
      have hte : (r.id == e.id) = true := by
        revert hc
        cases r.id == e.id <;> simp
      have hre : r.id = e.id := by simpa using hte
      have hee : e.email_address = r0.email_address :=
        hpend e (by simp) (by rw [← hre, hrid])
      rw [hU] at h3
      rw [hee] at h3
      exact h3 hsupp
    cases hpc : prepareEmailContent cd e (contactFor db e) with
    | error msg =>
      simp only [sendLoop]
      rw [if_neg h1, if_neg h2, if_neg h3, hpc]
      refine ih (i + 1)
        (recordEvent e.id "failed" (env.timeAt i)
          (updateEmailRow e.id (failedRowUpd msg) db)) calls hU hpend2 ?_
      have hm := List.mem_map_of_mem
        (fun x => if x.id == e.id then failedRowUpd msg x else x) hrmem
      dsimp only at hm
      rw [if_neg (by simp [hene])] at hm
      exact ⟨r, hm, hrid, hrsent, hrcase⟩
    | ok ct =>
      by_cases h4 : env.sendOk i = true
      · simp only [sendLoop]
        rw [if_neg h1, if_neg h2, if_neg h3, hpc]
        dsimp only
        rw [if_pos h4]
        refine ih (i + 1)
          (recordEvent e.id "sent" (env.timeAt i)
            (updateEmailRow e.id (sentRowUpd (env.timeAt i) (env.msgId i)) db))
          (calls ++ [e.id]) hU hpend2 ?_
        have hm := List.mem_map_of_mem
          (fun x => if x.id == e.id then sentRowUpd (env.timeAt i) (env.msgId i) x else x)
          hrmem
        dsimp only at hm
        rw [if_neg (by simp [hene])] at hm
        exact ⟨r, hm, hrid, hrsent, hrcase⟩
      · simp only [sendLoop]
        rw [if_neg h1, if_neg h2, if_neg h3, hpc]
        dsimp only
        rw [if_neg h4]
        refine ih (i + 1)
          (recordEvent e.id "failed" (env.timeAt i)
            (updateEmailRow e.id (failedRowUpd "Brevo sending failed") db))
          (calls ++ [e.id]) hU hpend2 ?_
        have hm := List.mem_map_of_mem
          (fun x => if x.id == e.id then failedRowUpd "Brevo sending failed" x else x)
          hrmem
        dsimp only at hm
        rw [if_neg (by simp [hene])] at hm
        exact ⟨r, hm, hrid, hrsent, hrcase⟩

theorem findCampaign_updateCampaignRow (db : Db) (id : Nat) (f : Campaign → Campaign)
    (hid : ∀ c, (f c).id = c.id) (c0 : Campaign)
    (hc : findCampaign db id = some c0) :
    findCampaign (updateCampaignRow id f db) id = some (f c0) := by
  unfold findCampaign at hc ⊢
  unfold updateCampaignRow
  dsimp only
  rw [filter_updateWhere (fun c => by simp [hid c])]
  have hfil := single_eq_some.mp hc
  rw [hfil]
  have hc0 : (c0.id == id) = true := by
    have hmem : c0 ∈ db.campaigns.filter (fun c => c.id == id) := by
      rw [hfil]; simp
    exact (List.mem_filter.mp hmem).2
  unfold updateWhere
  rw [List.map_cons, List.map_nil, if_pos hc0]
  rfl

theorem findCampaign_congr {db1 db2 : Db} (id : Nat)
    (h : db1.campaigns = db2.campaigns) :
    findCampaign db1 id = findCampaign db2 id := by
  unfold findCampaign
  rw [h]

theorem findCampaign_markCampaignComplete (db : Db) (id t : Nat) (c0 : Campaign)
    (hc : findCampaign db id = some c0) :
    findCampaign (markCampaignComplete id t db) id =
      some { c0 with
             status := .sent
             completed_at := some t
             stats := some (computeCampaignStats
               (db.campaign_emails.filter (fun e => e.campaign_id == id))) } :=
  findCampaign_updateCampaignRow db id
    (fun c => { c with
                status := .sent
                completed_at := some t
                stats := some (computeCampaignStats
                  (db.campaign_emails.filter (fun e => e.campaign_id == id))) })
    (fun _ => rfl) c0 hc

theorem findCampaign_statsWrite (db : Db) (id : Nat) (st : CampaignStats)
    (c0 : Campaign) (hc : findCampaign db id = some c0) :
    findCampaign (updateCampaignRow id (fun c => { c with stats := some st }) db) id =
      some { c0 with stats := some st } :=
  findCampaign_updateCampaignRow db id (fun c => { c with stats := some st })
    (fun _ => rfl) c0 hc

/-- C3: a Sender run that ends with zero pending records for the campaign
marks it sent with completed_at and a stats snapshot recomputed from the
records; a run that leaves pending records does not touch the status or
completed_at fields, and every record still pending afterwards is an
unmodified input record. -/
theorem C3_run_completion (campaignId : Nat) (cd : CampaignData) (env : SenderEnv)
    (db : Db) (c0 : Campaign) (hc : findCampaign db campaignId = some c0) :
    (((sendCampaignEmails campaignId cd env db).1.campaign_emails.filter
        (fun e => e.campaign_id == campaignId && e.status == .pending)).length = 0 →
      ∃ c1, findCampaign (sendCampaignEmails campaignId cd env db).1 campaignId = some c1 ∧
        c1.status = .sent ∧ c1.completed_at = some env.finalTime ∧
        c1.stats = some (computeCampaignStats
          ((sendCampaignEmails campaignId cd env db).1.campaign_emails.filter
            (fun e => e.campaign_id == campaignId)))) ∧
    (((sendCampaignEmails campaignId cd env db).1.campaign_emails.filter
        (fun e => e.campaign_id == campaignId && e.status == .pending)).length ≠ 0 →
      ∃ c1, findCampaign (sendCampaignEmails campaignId cd env db).1 campaignId = some c1 ∧
        c1.status = c0.status ∧ c1.completed_at = c0.completed_at) ∧
    (∀ r ∈ (sendCampaignEmails campaignId cd env db).1.campaign_emails,
      r.status = .pending → r ∈ db.campaign_emails) := by
  unfold sendCampaignEmails
  dsimp only
  by_cases hpe : (List.filter
      (fun e => e.campaign_id == campaignId && e.status == EmailStatus.pending)
      db.campaign_emails).isEmpty = true
  · rw [if_pos hpe]
    have hnil : List.filter
        (fun e => e.campaign_id == campaignId && e.status == EmailStatus.pending)
        db.campaign_emails = [] := by
      revert hpe
      cases List.filter (fun e => e.campaign_id == campaignId &&
        e.status == EmailStatus.pending) db.campaign_emails <;> simp [List.isEmpty]
    refine ⟨?_, ?_, fun r hr _ => hr⟩
    · intro _
      exact ⟨_, findCampaign_markCampaignComplete db campaignId env.finalTime c0 hc,
        rfl, rfl, rfl⟩
    · intro hne
      have hlen : (List.filter
          (fun e => e.campaign_id == campaignId && e.status == EmailStatus.pending)
          db.campaign_emails).length = 0 := by
        rw [hnil]
        rfl
      exact absurd hlen hne
  · rw [if_neg hpe]
    obtain ⟨hcamps, hunsub, hpendpres, extra, hcalls, hex⟩ := sendLoop_master cd env
      (List.filter (fun e => e.campaign_id == campaignId &&
        e.status == EmailStatus.pending) db.campaign_emails) 0 db []
    have hc1 : findCampaign (sendLoop cd env 0
        (List.filter (fun e => e.campaign_id == campaignId &&
          e.status == EmailStatus.pending) db.campaign_emails) db []).1 campaignId
        = some c0 := by
      rw [findCampaign_congr campaignId hcamps]
      exact hc
    by_cases hz : ((((sendLoop cd env 0
        (List.filter (fun e => e.campaign_id == campaignId &&
          e.status == EmailStatus.pending) db.campaign_emails)
        db []).1.campaign_emails.filter
          (fun e => e.campaign_id == campaignId)).filter
          (fun e => e.status == EmailStatus.pending)).length == 0) = true
    · rw [if_pos hz]
      have hzn : (((sendLoop cd env 0
          (List.filter (fun e => e.campaign_id == campaignId &&
            e.status == EmailStatus.pending) db.campaign_emails)
          db []).1.campaign_emails.filter
            (fun e => e.campaign_id == campaignId)).filter
            (fun e => e.status == EmailStatus.pending)).length = 0 := by
        simpa using hz
      rw [filter_filter_bool] at hzn
      refine ⟨?_, ?_, ?_⟩
      · intro _
        exact ⟨_, findCampaign_markCampaignComplete _ campaignId env.finalTime _
          (findCampaign_statsWrite _ campaignId _ c0 hc1), rfl, rfl, rfl⟩
      · intro hne
        exact absurd hzn hne
      · intro r hr hpend
        exact hpendpres r hr hpend
    · rw [if_neg hz]
      have hzn : ¬ ((((sendLoop cd env 0
          (List.filter (fun e => e.campaign_id == campaignId &&
            e.status == EmailStatus.pending) db.campaign_emails)
          db []).1.campaign_emails.filter
            (fun e => e.campaign_id == campaignId)).filter
            (fun e => e.status == EmailStatus.pending)).length = 0) := by
        intro h0
        exact hz (by simpa using h0)
      rw [filter_filter_bool] at hzn
      refine ⟨?_, ?_, ?_⟩
      · intro h0
        exact absurd h0 hzn
      · intro _
        exact ⟨_, findCampaign_statsWrite _ campaignId _ c0 hc1, rfl, rfl⟩
      · intro r hr hpend
        exact hpendpres r hr hpend

/-- C3 witness: the theorem applied to a store whose only record of the
campaign is already sent, so the run completes immediately. -/
theorem C3_witness :
    findCampaign exDb 1 = some exCampaign ∧
    ((((sendCampaignEmails 1 exCampaignDataAda exEnvAll exDb).1.campaign_emails.filter
        (fun e => e.campaign_id == 1 && e.status == .pending)).length = 0 →
      ∃ c1, findCampaign (sendCampaignEmails 1 exCampaignDataAda exEnvAll exDb).1 1 = some c1 ∧
        c1.status = .sent ∧ c1.completed_at = some exEnvAll.finalTime ∧
        c1.stats = some (computeCampaignStats
          ((sendCampaignEmails 1 exCampaignDataAda exEnvAll exDb).1.campaign_emails.filter
            (fun e => e.campaign_id == 1)))) ∧
    ((((sendCampaignEmails 1 exCampaignDataAda exEnvAll exDb).1.campaign_emails.filter
        (fun e => e.campaign_id == 1 && e.status == .pending)).length ≠ 0 →
      ∃ c1, findCampaign (sendCampaignEmails 1 exCampaignDataAda exEnvAll exDb).1 1 = some c1 ∧
        c1.status = exCampaign.status ∧ c1.completed_at = exCampaign.completed_at) ∧
    (∀ r ∈ (sendCampaignEmails 1 exCampaignDataAda exEnvAll exDb).1.campaign_emails,
      r.status = .pending → r ∈ exDb.campaign_emails))) :=
  ⟨by decide, C3_run_completion 1 exCampaignDataAda exEnvAll exDb exCampaign (by decide)⟩

/-- C5 counterexample: an UnsubscribeEntry whose stored email equals the
pending record address exactly (mixed case) does not suppress the send:
the Delivery Provider Client is invoked for the record, which ends sent
with sent_at set, because the check compares the lowercased address
against the verbatim stored entry. -/
theorem C5_counterexample :
    exDbBob.unsubscribes.map UnsubscribeRow.email = [exPendingBob.email_address] ∧
    (sendCampaignEmails 1 exCampaignDataAda exEnvAll exDbBob).2 = [exPendingBob.id] ∧
    (sendCampaignEmails 1 exCampaignDataAda exEnvAll exDbBob).1.campaign_emails.map
      EmailRecord.status = [.sent] ∧
    (sendCampaignEmails 1 exCampaignDataAda exEnvAll exDbBob).1.campaign_emails.map
      EmailRecord.sent_at = [some 50] := by decide

/-- C5 amended: suppression is keyed on the lowercased address.  Every id
handed to the Delivery Provider Client belongs to a pending record for
which the suppression check (an unsubscribes row equal to the lowercased
address) failed; and every record for which the check succeeds is never
passed to the provider and, when processed, is set to unsubscribed with
the recorded reason while its sent_at (and so an unset sent_at) is left
untouched.  An entry stored with a casing other than the lowercased
address never suppresses a send (see the counterexample). -/
theorem C5_amended (campaignId : Nat) (cd : CampaignData) (env : SenderEnv)
    (db : Db) (hids : (db.campaign_emails.map EmailRecord.id).Nodup) :
    (∀ id ∈ (sendCampaignEmails campaignId cd env db).2,
      ∃ e ∈ db.campaign_emails, e.id = id ∧ e.status = .pending ∧
        isUnsubscribed db.unsubscribes e.email_address = false) ∧
    (∀ r0 ∈ db.campaign_emails,
      isUnsubscribed db.unsubscribes r0.email_address = true →
      ∃ r ∈ (sendCampaignEmails campaignId cd env db).1.campaign_emails,
        r.id = r0.id ∧ r.sent_at = r0.sent_at ∧
        (r.status = r0.status ∧ r.error_message = r0.error_message ∨
         r.status = .unsubscribed ∧
           r.error_message = some "Email previously unsubscribed")) := by
  unfold sendCampaignEmails
  dsimp only
  by_cases hpe : (List.filter
      (fun e => e.campaign_id == campaignId && e.status == EmailStatus.pending)
      db.campaign_emails).isEmpty = true
  · rw [if_pos hpe]
    constructor
    · intro id hid
      exact absurd hid (List.not_mem_nil id)
    · intro r0 hr0 hsupp
      exact ⟨r0, hr0, rfl, rfl, Or.inl ⟨rfl, rfl⟩⟩
  · rw [if_neg hpe]
    obtain ⟨hcamps, hunsub, hpendpres, extra, hcalls, hex⟩ := sendLoop_master cd env
      (List.filter (fun e => e.campaign_id == campaignId &&
        e.status == EmailStatus.pending) db.campaign_emails) 0 db []
    constructor
    · intro id hid
      have hid2 : id ∈ (sendLoop cd env 0
          (List.filter (fun e => e.campaign_id == campaignId &&
            e.status == EmailStatus.pending) db.campaign_emails) db []).2 := hid
      rw [hcalls] at hid2
      obtain ⟨e, hem, heid, hus⟩ := hex id (by simpa using hid2)
      have hmf := List.mem_filter.mp hem
      have hst : e.status = .pending := by
        have := hmf.2
        simp only [Bool.and_eq_true, beq_iff_eq] at this
        exact this.2
      exact ⟨e, hmf.1, heid, hst, hus⟩
    · intro r0 hr0 hsupp
      have hpend0 : ∀ e ∈ List.filter (fun e => e.campaign_id == campaignId &&
          e.status == EmailStatus.pending) db.campaign_emails,
          e.id = r0.id → e.email_address = r0.email_address := by
        intro e hem heid
        have hmf := List.mem_filter.mp hem
        have := List.inj_on_of_nodup_map hids hmf.1 hr0 (by simpa using heid)
        rw [this]
      obtain ⟨r, hrmem, hrid, hrsent, hrcase⟩ :=
        sendLoop_suppressed cd env r0 db.unsubscribes hsupp
          (List.filter (fun e => e.campaign_id == campaignId &&
            e.status == EmailStatus.pending) db.campaign_emails) 0 db [] rfl hpend0
          ⟨r0, hr0, rfl, rfl, Or.inl ⟨rfl, rfl⟩⟩
      refine ⟨r, ?_, hrid, hrsent, hrcase⟩
      split <;> exact hrmem

/-- C5 witness: the amended theorem applied to a store whose single
pending record is suppressed by a lowercase entry. -/
theorem C5_witness :
    (exDbCarl.campaign_emails.map EmailRecord.id).Nodup ∧
    ((∀ id ∈ (sendCampaignEmails 1 exCampaignDataAda exEnvAll exDbCarl).2,
      ∃ e ∈ exDbCarl.campaign_emails, e.id = id ∧ e.status = .pending ∧
        isUnsubscribed exDbCarl.unsubscribes e.email_address = false) ∧
    (∀ r0 ∈ exDbCarl.campaign_emails,
      isUnsubscribed exDbCarl.unsubscribes r0.email_address = true →
      ∃ r ∈ (sendCampaignEmails 1 exCampaignDataAda exEnvAll exDbCarl).1.campaign_emails,
        r.id = r0.id ∧ r.sent_at = r0.sent_at ∧
        (r.status = r0.status ∧ r.error_message = r0.error_message ∨
         r.status = .unsubscribed ∧
           r.error_message = some "Email previously unsubscribed"))) :=
  ⟨by decide, C5_amended 1 exCampaignDataAda exEnvAll exDbCarl (by decide)⟩

theorem mkCampaignEmails_filter_self (id : Nat) :
    ∀ (n : Nat) (cts : List Contact),
      (mkCampaignEmails id n cts).filter (fun e => e.campaign_id == id) =
        mkCampaignEmails id n cts := by
  intro n cts
  induction cts generalizing n with
  | nil => rfl
  | cons ct rest ih =>
    simp only [mkCampaignEmails, List.filter_cons]
    rw [if_pos (by simp [mkCampaignEmail])]
    rw [ih]

theorem mkCampaignEmails_map_contact (id : Nat) :
    ∀ (n : Nat) (cts : List Contact),
      (mkCampaignEmails id n cts).map EmailRecord.csv_contact_id =
        cts.map Contact.id := by
  intro n cts
  induction cts generalizing n with
  | nil => rfl
  | cons ct rest ih =>
    simp only [mkCampaignEmails, List.map_cons]
    rw [ih]
    rfl

theorem prepare_ok_shape (campaignId : Nat) (db : Db) (c : Campaign)
    (hc : findCampaign db campaignId = some c) (db2 : Db)
    (hok : prepareCampaignEmails campaignId db = .ok db2) :
    db2.campaign_emails = db.campaign_emails ++
      mkCampaignEmails campaignId db.next_email_id
        (db.csv_contacts.filter
          (fun ct => c.csv_file_id == some ct.csv_file_id && ct.is_valid)) ∧
    db2.csv_contacts = db.csv_contacts ∧
    db.csv_contacts.filter
      (fun ct => c.csv_file_id == some ct.csv_file_id && ct.is_valid) ≠ [] ∧
    ∃ c2, findCampaign db2 campaignId = some c2 ∧
      c2.csv_file_id = c.csv_file_id ∧ c2.status = c.status := by
  unfold prepareCampaignEmails at hok
  rw [hc] at hok
  dsimp only at hok
  by_cases hemp : (db.csv_contacts.filter
      (fun ct => c.csv_file_id == some ct.csv_file_id && ct.is_valid)).isEmpty = true
  · rw [if_pos hemp] at hok
    cases hok
  · rw [if_neg hemp] at hok
    have hne : db.csv_contacts.filter
        (fun ct => c.csv_file_id == some ct.csv_file_id && ct.is_valid) ≠ [] := by
      intro h0
      rw [h0] at hemp
      exact hemp rfl
    cases hok
    refine ⟨rfl, rfl, hne, ?_⟩
    have hc2 := findCampaign_statsWrite
      ({ db with
         campaign_emails := db.campaign_emails ++
           mkCampaignEmails campaignId db.next_email_id
             (db.csv_contacts.filter
               (fun ct => c.csv_file_id == some ct.csv_file_id && ct.is_valid))
         next_email_id := db.next_email_id +
           (db.csv_contacts.filter
             (fun ct => c.csv_file_id == some ct.csv_file_id && ct.is_valid)).length })
      campaignId
      { total := (db.csv_contacts.filter
          (fun ct => c.csv_file_id == some ct.csv_file_id && ct.is_valid)).length,
        sent := 0, delivered := 0, opened := 0, clicked := 0, bounced := 0,
        failed := 0, unsubscribed := 0 }
      c (by rw [findCampaign_congr campaignId rfl]; exact hc)
    exact ⟨_, hc2, rfl, rfl⟩

theorem C7Inv_schedule (id : Nat) (db0 : Db) (c0 : Campaign) (t : Nat) (db : Db)
    (hinv : C7Inv id db0 c0 db) :
    C7Inv id db0 c0 (runOp (schedule id t db) db) := by
  obtain ⟨c, hfc, hcsv, hcts, hdisj⟩ := hinv
  unfold schedule
  rw [hfc]
  dsimp only
  by_cases hst : c.status ≠ .draft
  · rw [if_pos hst]
    exact ⟨c, hfc, hcsv, hcts, hdisj⟩
  rw [if_neg hst]
  by_cases htpl : c.template_id = none ∨ c.csv_file_id = none
  · rw [if_pos htpl]
    exact ⟨c, hfc, hcsv, hcts, hdisj⟩
  rw [if_neg htpl]
  cases hprep : prepareCampaignEmails id db with
  | error e => exact ⟨c, hfc, hcsv, hcts, hdisj⟩
  | ok db2 =>
    obtain ⟨hemails, hcsv2, hne, c2, hfc2, hcsv2c, hst2⟩ :=
      prepare_ok_shape id db c hfc db2 hprep
    have hdraft : c.status = .draft := by
      by_contra h
      exact hst h
    have hfil0 : db.campaign_emails.filter (fun e => e.campaign_id == id) = [] := by
      rcases hdisj with ⟨_, h⟩ | ⟨_, _, hnd⟩
      · exact h
      · exact absurd hdraft hnd
    have hc3 := findCampaign_updateCampaignRow db2 id
      (fun c => { c with status := .scheduled, scheduled_at := some t })
      (fun _ => rfl) c2 hfc2
    refine ⟨_, hc3, hcsv2c.trans hcsv, hcsv2.trans hcts, Or.inr ⟨?_, ?_, by simp⟩⟩
    · show (db2.campaign_emails.filter (fun e => e.campaign_id == id)).map
        EmailRecord.csv_contact_id = materializedTarget db0 c0
      rw [hemails, List.filter_append, hfil0, List.nil_append,
        mkCampaignEmails_filter_self, mkCampaignEmails_map_contact]
      unfold materializedTarget
      rw [hcts, hcsv]
    · intro h0
      unfold materializedTarget at h0
      rw [← hcsv, ← hcts] at h0
      have := List.map_eq_nil_iff.mp h0
      exact hne this

theorem C7Inv_start (id : Nat) (db0 : Db) (c0 : Campaign) (t : Nat) (db : Db)
    (hinv : C7Inv id db0 c0 db) :
    C7Inv id db0 c0 (runOp (start id t db) db) := by
  obtain ⟨c, hfc, hcsv, hcts, hdisj⟩ := hinv
  unfold start
  rw [hfc]
  dsimp only
  by_cases hg1 : c.status ≠ .draft ∧ c.status ≠ .scheduled
  · rw [if_pos hg1]
    exact ⟨c, hfc, hcsv, hcts, hdisj⟩
  rw [if_neg hg1]
  by_cases htpl : c.template_id = none ∨ c.csv_file_id = none
  · rw [if_pos htpl]
    exact ⟨c, hfc, hcsv, hcts, hdisj⟩
  rw [if_neg htpl]
  rcases hdisj with ⟨hdraft, hfil0⟩ | ⟨hmap, hne, hnd⟩
  · have hcnt : ((db.campaign_emails.filter (fun e => e.campaign_id == id)).length == 0)
        = true := by
      rw [hfil0]
      rfl
    rw [hcnt, if_pos rfl]
    cases hprep : prepareCampaignEmails id db with
    | error e => exact ⟨c, hfc, hcsv, hcts, Or.inl ⟨hdraft, hfil0⟩⟩
    | ok db2 =>
      obtain ⟨hemails, hcsv2, hne2, c2, hfc2, hcsv2c, hst2⟩ :=
        prepare_ok_shape id db c hfc db2 hprep
      have hc3 := findCampaign_updateCampaignRow db2 id
        (fun c => { c with status := .sending, started_at := some t })
        (fun _ => rfl) c2 hfc2
      refine ⟨_, hc3, hcsv2c.trans hcsv, hcsv2.trans hcts, Or.inr ⟨?_, ?_, by simp⟩⟩
      · show (db2.campaign_emails.filter (fun e => e.campaign_id == id)).map
          EmailRecord.csv_contact_id = materializedTarget db0 c0
        rw [hemails, List.filter_append, hfil0, List.nil_append,
          mkCampaignEmails_filter_self, mkCampaignEmails_map_contact]
        unfold materializedTarget
        rw [hcts, hcsv]
      · intro h0
        unfold materializedTarget at h0
        rw [← hcsv, ← hcts] at h0
        have := List.map_eq_nil_iff.mp h0
        exact hne2 this
  · have hlen : (db.campaign_emails.filter (fun e => e.campaign_id == id)).length ≠ 0 := by
      intro h0
      apply hne
      have hmn : (db.campaign_emails.filter (fun e => e.campaign_id == id)) = [] :=
        List.length_eq_zero.mp h0
      rw [hmn] at hmap
      exact hmap.symm
    have hcnt : ((db.campaign_emails.filter (fun e => e.campaign_id == id)).length == 0)
        = false := by
      revert hlen
      cases (db.campaign_emails.filter (fun e => e.campaign_id == id)).length <;> simp
    rw [hcnt, if_neg (by simp)]
    have hc3 := findCampaign_updateCampaignRow db id
      (fun c => { c with status := .sending, started_at := some t })
      (fun _ => rfl) c hfc
    exact ⟨_, hc3, hcsv, hcts, Or.inr ⟨hmap, hne, by simp⟩⟩

/-- C7 counterexample: on a draft campaign with one valid recipient and
an already existing EmailRecord, schedule succeeds and creates a second
record: schedule never skips materialization. -/
theorem C7_counterexample :
    (schedule 2 100 exDbDraftWithRecord).isOk = true ∧
    ((runOp (schedule 2 100 exDbDraftWithRecord) exDbDraftWithRecord).campaign_emails.filter
      (fun e => e.campaign_id == 2)).length = 2 ∧
    (exDbDraftWithRecord.campaign_emails.filter (fun e => e.campaign_id == 2)).length = 1 ∧
    (exDbDraftWithRecord.csv_contacts.filter
      (fun ct => exDraftCampaign.csv_file_id == some ct.csv_file_id && ct.is_valid)).length
      = 1 := by decide

/-- C7 amended: only start checks for existing records; schedule always
materializes but is guarded to run only from draft, so starting from a
campaign created in draft with no EmailRecords, every sequence of
schedule/start invocations leaves either no records or exactly one
record per valid recipient; invoking schedule on a draft campaign that
already has records would duplicate them (see the counterexample). -/
theorem C7_amended (id : Nat) (db0 : Db) (c0 : Campaign)
    (hc : findCampaign db0 id = some c0) (hdraft : c0.status = .draft)
    (hempty : db0.campaign_emails.filter (fun e => e.campaign_id == id) = []) :
    ∀ ops : List CampaignOp,
      (runOps id ops db0).campaign_emails.filter (fun e => e.campaign_id == id) = [] ∨
      ((runOps id ops db0).campaign_emails.filter
          (fun e => e.campaign_id == id)).map EmailRecord.csv_contact_id =
        materializedTarget db0 c0 := by
  have hstep : ∀ (ops : List CampaignOp) (db : Db), C7Inv id db0 c0 db →
      C7Inv id db0 c0 (runOps id ops db) := by
    intro ops
    induction ops with
    | nil => intro db h; exact h
    | cons op rest ih =>
      intro db h
      rw [runOps, List.foldl_cons]
      cases op with
      | schedule t => exact ih _ (C7Inv_schedule id db0 c0 t db h)
      | start t => exact ih _ (C7Inv_start id db0 c0 t db h)
  intro ops
  have hinv0 : C7Inv id db0 c0 db0 := ⟨c0, hc, rfl, rfl, Or.inl ⟨hdraft, hempty⟩⟩
  obtain ⟨c, _, _, _, hdisj⟩ := hstep ops db0 hinv0
  rcases hdisj with ⟨_, h⟩ | ⟨h, _, _⟩
  · left
    exact h
  · right
    exact h

/-- C7 witness: the amended theorem on the clean draft store, run through
schedule then start. -/
theorem C7_witness :
    findCampaign exDbDraftClean 2 = some exDraftCampaign ∧
    ((runOps 2 [CampaignOp.schedule 100, CampaignOp.start 5]
        exDbDraftClean).campaign_emails.filter (fun e => e.campaign_id == 2) = [] ∨
      ((runOps 2 [CampaignOp.schedule 100, CampaignOp.start 5]
          exDbDraftClean).campaign_emails.filter
          (fun e => e.campaign_id == 2)).map EmailRecord.csv_contact_id =
        materializedTarget exDbDraftClean exDraftCampaign) :=
  ⟨by decide, C7_amended 2 exDbDraftClean exDraftCampaign (by decide) (by decide)
    (by decide) [CampaignOp.schedule 100, CampaignOp.start 5]⟩

/-- C8: the pause guard admits exactly the sending status and the cancel
guard admits exactly the four statuses other than sent and cancelled;
a failed guard rejects the operation with its error message and the
store, campaign rows and EmailRecords included, is exactly the input
store. -/
theorem C8_guard_atomicity (db : Db) (id : Nat) (c : Campaign)
    (hc : findCampaign db id = some c) :
    ((∃ db2, pause id db = .ok db2) ↔ c.status = .sending) ∧
    (c.status ≠ .sending →
      pause id db = .error "Can only pause campaigns that are currently sending" ∧
      runOp (pause id db) db = db) ∧
    ((∃ db2, cancel id db = .ok db2) ↔
      (c.status = .draft ∨ c.status = .scheduled ∨ c.status = .sending ∨
        c.status = .paused)) ∧
    ((c.status = .sent ∨ c.status = .cancelled) →
      cancel id db = .error "Campaign is already completed or cancelled" ∧
      runOp (cancel id db) db = db) := by
  have hperr : c.status ≠ .sending →
      pause id db = .error "Can only pause campaigns that are currently sending" := by
    intro hns
    unfold pause
    rw [hc]
    dsimp only
    rw [if_pos hns]
  have hpok : c.status = .sending → ∃ db2, pause id db = .ok db2 := by
    intro hs
    unfold pause
    rw [hc]
    dsimp only
    rw [if_neg (fun h => h hs)]
    exact ⟨_, rfl⟩
  have hcerr : (c.status = .sent ∨ c.status = .cancelled) →
      cancel id db = .error "Campaign is already completed or cancelled" := by
    intro hterm
    unfold cancel
    rw [hc]
    dsimp only
    rw [if_pos hterm]
  have hcok : ¬(c.status = .sent ∨ c.status = .cancelled) →
      ∃ db2, cancel id db = .ok db2 := by
    intro hnterm
    unfold cancel
    rw [hc]
    dsimp only
    rw [if_neg hnterm]
    exact ⟨_, rfl⟩
  refine ⟨⟨?_, hpok⟩, ?_, ⟨?_, ?_⟩, ?_⟩
  · intro ⟨db2, h2⟩
    by_contra hns
    rw [hperr hns] at h2
    cases h2
  · intro hns
    refine ⟨hperr hns, ?_⟩
    rw [hperr hns]
    rfl
  · intro ⟨db2, h2⟩
    by_contra hn4
    have hterm : c.status = .sent ∨ c.status = .cancelled := by
      cases hcs : c.status <;> simp [hcs] at hn4 ⊢
    rw [hcerr hterm] at h2
    cases h2
  · intro h4
    apply hcok
    intro hterm
    rcases h4 with h | h | h | h <;> rcases hterm with h2 | h2 <;> rw [h] at h2 <;> cases h2
  · intro hterm
    refine ⟨hcerr hterm, ?_⟩
    rw [hcerr hterm]
    rfl

/-- C8 witness: the theorem applied to the store whose campaign is
sending (pause succeeds, cancel succeeds, both guards characterized). -/
theorem C8_witness :
    findCampaign exDb 1 = some exCampaign ∧
    (((∃ db2, pause 1 exDb = .ok db2) ↔ exCampaign.status = .sending) ∧
    (exCampaign.status ≠ .sending →
      pause 1 exDb = .error "Can only pause campaigns that are currently sending" ∧
      runOp (pause 1 exDb) exDb = exDb) ∧
    ((∃ db2, cancel 1 exDb = .ok db2) ↔
      (exCampaign.status = .draft ∨ exCampaign.status = .scheduled ∨
        exCampaign.status = .sending ∨ exCampaign.status = .paused)) ∧
    ((exCampaign.status = .sent ∨ exCampaign.status = .cancelled) →
      cancel 1 exDb = .error "Campaign is already completed or cancelled" ∧
      runOp (cancel 1 exDb) exDb = exDb)) :=
  ⟨by decide, C8_guard_atomicity exDb 1 exCampaign (by decide)⟩

theorem promoteFold_keep (writeTime : Nat) :
    ∀ (due : List Campaign) (d : Db) (c : Campaign),
      c ∈ d.campaigns → c.status ≠ .scheduled →
      c ∈ (due.foldl (promoteStep writeTime) d).campaigns := by
  intro due
  induction due with
  | nil => intro d c h _; exact h
  | cons cd rest ih =>
    intro d c h hns
    rw [List.foldl_cons]
    refine ih _ _ ?_ hns
    have hm := List.mem_map_of_mem
      (fun r => if r.id == cd.id && r.status == .scheduled then
        { r with status := .sending, started_at := some writeTime } else r) h
    dsimp only at hm
    have hcnd : ¬((c.id == cd.id && c.status == CampaignStatus.scheduled) = true) := by
      intro hcond
      have := (Bool.and_eq_true _ _).mp hcond
      exact hns (by simpa using this.2)
    rw [if_neg hcnd] at hm
    exact hm

theorem promoteFold_promote (writeTime : Nat) :
    ∀ (due : List Campaign) (d : Db) (c : Campaign),
      c ∈ d.campaigns → c.status = .scheduled → (∃ cd ∈ due, cd.id = c.id) →
      { c with status := .sending, started_at := some writeTime } ∈
        (due.foldl (promoteStep writeTime) d).campaigns := by
  intro due
  induction due with
  | nil =>
    intro d c _ _ hex
    obtain ⟨cd, hcd, _⟩ := hex
    exact absurd hcd (List.not_mem_nil cd)
  | cons cd rest ih =>
    intro d c hmem hsch hex
    rw [List.foldl_cons]
    by_cases hid : cd.id = c.id
    · have hm := List.mem_map_of_mem
        (fun r => if r.id == cd.id && r.status == .scheduled then
          { r with status := .sending, started_at := some writeTime } else r) hmem
      dsimp only at hm
      rw [if_pos (by simp [hid, hsch])] at hm
      exact promoteFold_keep writeTime rest _ _ hm (by simp)
    · have hm := List.mem_map_of_mem
        (fun r => if r.id == cd.id && r.status == .scheduled then
          { r with status := .sending, started_at := some writeTime } else r) hmem
      dsimp only at hm
      have hcnd : ¬((c.id == cd.id && c.status == CampaignStatus.scheduled) = true) := by
        intro hcond
        have := (Bool.and_eq_true _ _).mp hcond
        have h1 : c.id = cd.id := by simpa using this.1
        exact hid h1.symm
      rw [if_neg hcnd] at hm
      refine ih _ _ hm hsch ?_
      obtain ⟨cd2, hcd2, hcd2id⟩ := hex
      rcases List.mem_cons.mp hcd2 with h | h
      · exact absurd (h ▸ hcd2id) hid
      · exact ⟨cd2, h, hcd2id⟩

/-- C9 counterexample: the due scheduled campaign is promoted by the
tick, a second tick is a silent no-op thanks to the write-time guard, but
the manual path is different: scheduleNow itself performs no guarded
promotion at all, and the status write of CampaignsService.start, applied
after the tick has already promoted the campaign, is not a no-op, it
rewrites status and started_at without any status condition. -/
theorem C9_counterexample :
    (checkScheduledCampaigns 10 11 exDbScheduled).campaigns.map
      (fun c => (c.status, c.started_at)) = [(.sending, some 11)] ∧
    checkScheduledCampaigns 10 12 (checkScheduledCampaigns 10 11 exDbScheduled) =
      checkScheduledCampaigns 10 11 exDbScheduled ∧
    scheduleNow 3 exDbScheduled = exDbScheduled ∧
    (startPromotionWrite 3 20 (checkScheduledCampaigns 10 11 exDbScheduled)).campaigns.map
      (fun c => (c.status, c.started_at)) = [(.sending, some 20)] ∧
    startPromotionWrite 3 20 (checkScheduledCampaigns 10 11 exDbScheduled) ≠
      checkScheduledCampaigns 10 11 exDbScheduled := by decide

/-- C9 amended: only the periodic tick promotes through a conditional
update guarded on status still being scheduled at write time (rows not
scheduled pass through unchanged, due scheduled rows are promoted); the
manual path checks the status only by a prior read: scheduleNow performs
no campaigns write at all and the status write of CampaignsService.start
applies to its row whatever its status, so a manual start whose write
lands after the tick promotion overwrites the row instead of being a
no-op. -/
theorem C9_amended (now writeTime : Nat) (db : Db) :
    (∀ c ∈ db.campaigns, c.status ≠ .scheduled →
      c ∈ (checkScheduledCampaigns now writeTime db).campaigns) ∧
    (∀ c ∈ db.campaigns, c.status = .scheduled →
      ∀ t0, c.scheduled_at = some t0 → t0 ≤ now →
      { c with status := .sending, started_at := some writeTime } ∈
        (checkScheduledCampaigns now writeTime db).campaigns) ∧
    (∀ (id t : Nat) (d : Db) (r : Campaign), r ∈ d.campaigns → r.id = id →
      { r with status := .sending, started_at := some t } ∈
        (startPromotionWrite id t d).campaigns) ∧
    (∀ id : Nat, scheduleNow id db = db) := by
  refine ⟨?_, ?_, ?_, fun _ => rfl⟩
  · intro c hmem hns
    exact promoteFold_keep writeTime _ db c hmem hns
  · intro c hmem hsch t0 hat ht
    refine promoteFold_promote writeTime _ db c hmem hsch ⟨c, ?_, rfl⟩
    refine List.mem_filter.mpr ⟨hmem, ?_⟩
    rw [hsch, hat]
    simp [ht]
  · intro id t d r hmem hid
    have hm := List.mem_map_of_mem
      (fun x => if x.id == id then
        { x with status := .sending, started_at := some t } else x) hmem
    dsimp only at hm
    rw [if_pos (by simp [hid])] at hm
    exact hm

/-- C9 witness: the amended theorem instantiated on the due scheduled
campaign store. -/
theorem C9_witness :
    exScheduledCampaign ∈ exDbScheduled.campaigns ∧
    exScheduledCampaign.status = .scheduled ∧
    exScheduledCampaign.scheduled_at = some 5 ∧ 5 ≤ 10 ∧
    { exScheduledCampaign with status := .sending, started_at := some 11 } ∈
      (checkScheduledCampaigns 10 11 exDbScheduled).campaigns :=
  ⟨by decide, by decide, by decide, by decide,
    (C9_amended 10 11 exDbScheduled).2.1 exScheduledCampaign (by decide) (by decide)
      5 (by decide) (by decide)⟩

/-- C10: the suppression check matches exactly the rows whose email
equals the lowercased probe; the webhook handler and the public
unsubscribe endpoint both insert the recipient address verbatim; and a
stored entry containing any ASCII uppercase letter can never equal a
lowercased probe, so it is never matched by the check. -/
theorem C10_suppression_case_mismatch :
    (∀ (unsubs : List UnsubscribeRow) (e : JStr),
      isUnsubscribed unsubs e = true ↔ ∃ u ∈ unsubs, u.email = toLowerCase e) ∧
    (∀ (emailId campaignId : Nat) (em : JStr) (t : Nat) (db : Db),
      ∃ u, (handleUnsubscribed emailId campaignId em t db).unsubscribes =
        db.unsubscribes ++ [u] ∧ u.email = em) ∧
    (∀ (campaignEmailId now : Nat) (db : Db) (ce : EmailRecord),
      single (db.campaign_emails.filter (fun e => e.id == campaignEmailId)) = some ce →
      (ce.unsubscribed_at.isSome || ce.status == .unsubscribed) = false →
      ∃ u, (unsubscribeEndpoint campaignEmailId now db).unsubscribes =
        db.unsubscribes ++ [u] ∧ u.email = ce.email_address) ∧
    (∀ (u : UnsubscribeRow) (e : JStr),
      (∃ n ∈ u.email, 65 ≤ n ∧ n ≤ 90) → u.email ≠ toLowerCase e) := by
  refine ⟨?_, ?_, ?_, ?_⟩
  · intro unsubs e
    unfold isUnsubscribed
    cases hf : unsubs.filter (fun u => u.email == toLowerCase e) with
    | nil =>
      simp only [List.isEmpty_nil, Bool.not_true]
      constructor
      · intro h
        cases h
      · intro ⟨u, hu, heq⟩
        have hmem : u ∈ unsubs.filter (fun u => u.email == toLowerCase e) :=
          List.mem_filter.mpr ⟨hu, by simp [heq]⟩
        rw [hf] at hmem
        exact absurd hmem (List.not_mem_nil u)
    | cons a t =>
      simp only [List.isEmpty_cons, Bool.not_false, true_iff]
      have hmem : a ∈ unsubs.filter (fun u => u.email == toLowerCase e) := by
        rw [hf]
        simp
      have := List.mem_filter.mp hmem
      exact ⟨a, this.1, by simpa using this.2⟩
  · intro emailId campaignId em t db
    exact ⟨_, rfl, rfl⟩
  · intro campaignEmailId now db ce hs hflag
    unfold unsubscribeEndpoint
    rw [hs]
    dsimp only
    rw [if_neg (by simp [hflag])]
    have hstats : ∀ (cid : Nat) (d : Db),
        (updateUnsubStats cid d).unsubscribes = d.unsubscribes := by
      intro cid d
      unfold updateUnsubStats
      cases (single (d.campaigns.filter (fun c => c.id == cid))).bind Campaign.stats with
      | none => rfl
      | some stats => rfl
    rw [hstats]
    exact ⟨_, rfl, rfl⟩
  · intro u e hup heq
    obtain ⟨n, hn, h65, h90⟩ := hup
    rw [heq] at hn
    obtain ⟨m, _, hm⟩ := List.mem_map.mp hn
    unfold lowerCode at hm
    by_cases hc : 65 ≤ m ∧ m ≤ 90
    · rw [if_pos hc] at hm
      omega
    · rw [if_neg hc] at hm
      omega

/-- C10 witness: the check instantiated on the lowercase entry and the
mixed-case probe that it does match. -/
theorem C10_witness :
    isUnsubscribed [exUnsubLower] (str "Carl@X.com") = true ↔
      ∃ u ∈ [exUnsubLower], u.email = toLowerCase (str "Carl@X.com") :=
  C10_suppression_case_mismatch.1 [exUnsubLower] (str "Carl@X.com")

end Marketing
